import Mathlib

/-!
A shallow embedding of the rating/matchup engine of `src/rater.rs`
(the `rating-update` repository) together with proofs about it.

Modelling conventions:
* `i64` identifiers, characters, winners, floors and timestamps become `ℤ`
  (no arithmetic in the source comes near the `i64` range, the only addition
  is `last_update + RATING_PERIOD` on Unix timestamps).
* `f64` rating values, deviations and volatilities stored in the database
  become `ℚ` (every finite `f64` is a rational); the transcendental logistic
  win probability `exp v / (exp v + exp w)` is modelled exactly over `ℝ`
  with `Real.exp`.
* SQL tables become Lean data: append-only tables are lists, keyed tables
  are association lists (first occurrence wins, mirroring a primary key),
  and the three matchup tables — whose rows are created zeroed with
  `INSERT OR IGNORE` before every `UPDATE` that touches them — are total
  functions from the key to the row, defaulting to the all-zero row.
* The glicko2 crate is external to the repository; its `new_rating` is a
  parameter of the embedding and `Glicko2Rating::unrated` is modelled from
  the spec (see below).
* `panic!` on a winner outside {1, 2} is modelled by leaving the state
  unchanged; theorems that depend on winner values carry the corresponding
  hypothesis.
-/

namespace RatingUpdate

/-- Source: `const SYS_CONSTANT: f64 = 0.1;` (the Glicko-2 τ). -/
def SYS_CONSTANT : ℚ := 0.1

/-- Source: `pub const MAX_DEVIATION: f64 = 100.0 / 173.7178;`. -/
def MAX_DEVIATION : ℚ := 100.0 / 173.7178

/-- Source: `pub const HIGH_RATING: f64 = (1800.0 - 1500.0) / 173.7178;`. -/
def HIGH_RATING : ℚ := (1800.0 - 1500.0) / 173.7178

/-- Source: `pub const RATING_PERIOD: i64 = 1 * 60 * 60;`. -/
def RATING_PERIOD : ℤ := 1 * 60 * 60

/-- Source: `pub fn glicko_to_glicko2(r: f64) -> f64 { (r - 1500.0) / 173.7178 }`. -/
def glicko_to_glicko2 (r : ℚ) : ℚ := (r - 1500.0) / 173.7178

/-! ### Association-list primitives

These model keyed SQL tables and the `FxHashMap`s of the source.  `assocFind`
returns the first binding of a key, `assocAdj` modifies the first binding
(an SQL `UPDATE` / a mutation through `get_mut`), `assocSet` replaces the
first binding or appends (`REPLACE INTO`), and `assocOrInsert` appends a
binding only when the key is absent (`INSERT OR IGNORE` / `entry(..).or_insert(..)`).
-/

variable {κ : Type} {α : Type} [DecidableEq κ]

def assocFind (l : List (κ × α)) (k : κ) : Option α :=
  match l with
  | [] => none
  | (k₀, v₀) :: t => if k₀ = k then some v₀ else assocFind t k

def assocAdj (l : List (κ × α)) (k : κ) (f : α → α) : List (κ × α) :=
  match l with
  | [] => []
  | (k₀, v₀) :: t => if k₀ = k then (k₀, f v₀) :: t else (k₀, v₀) :: assocAdj t k f

def assocSet (l : List (κ × α)) (k : κ) (v : α) : List (κ × α) :=
  match l with
  | [] => [(k, v)]
  | (k₀, v₀) :: t => if k₀ = k then (k₀, v) :: t else (k₀, v₀) :: assocSet t k v

def assocOrInsert (l : List (κ × α)) (k : κ) (v : α) : List (κ × α) :=
  match assocFind l k with
  | some _ => l
  | none => l ++ [(k, v)]

@[simp] theorem assocFind_nil (k : κ) : assocFind ([] : List (κ × α)) k = none := rfl

@[simp] theorem assocFind_cons (k₀ : κ) (v₀ : α) (t : List (κ × α)) (k : κ) :
    assocFind ((k₀, v₀) :: t) k = if k₀ = k then some v₀ else assocFind t k := rfl

theorem assocFind_append (l₁ l₂ : List (κ × α)) (k : κ) :
    assocFind (l₁ ++ l₂) k =
      match assocFind l₁ k with
      | some v => some v
      | none => assocFind l₂ k := by
  induction l₁ with
  | nil => simp [assocFind]
  | cons h t ih =>
      obtain ⟨k₀, v₀⟩ := h
      by_cases hk : k₀ = k <;> simp [assocFind, hk, ih]

theorem assocFind_adj (l : List (κ × α)) (k : κ) (f : α → α) (k₁ : κ) :
    assocFind (assocAdj l k f) k₁ =
      if k₁ = k then (assocFind l k).map f else assocFind l k₁ := by
  induction l with
  | nil => by_cases h : k₁ = k <;> simp [assocAdj, h]
  | cons hd t ih =>
      obtain ⟨k₀, v₀⟩ := hd
      by_cases h0 : k₀ = k
      · subst h0
        by_cases h1 : k₀ = k₁
        · subst h1
          simp [assocAdj]
        · have h1a : ¬ k₁ = k₀ := fun hh => h1 hh.symm
          simp [assocAdj, h1, h1a]
      · by_cases h1 : k₀ = k₁
        · subst h1
          have h0a : ¬ k₀ = k := h0
          simp [assocAdj, h0a]
        · simp [assocAdj, h0, h1, ih]

theorem assocFind_set (l : List (κ × α)) (k : κ) (v : α) (k₁ : κ) :
    assocFind (assocSet l k v) k₁ =
      if k₁ = k then some v else assocFind l k₁ := by
  induction l with
  | nil =>
      by_cases h : k₁ = k
      · subst h
        simp [assocSet]
      · have ha : ¬ k = k₁ := fun hh => h hh.symm
        simp [assocSet, h, ha]
  | cons hd t ih =>
      obtain ⟨k₀, v₀⟩ := hd
      by_cases h0 : k₀ = k
      · subst h0
        by_cases h1 : k₀ = k₁
        · subst h1
          simp [assocSet]
        · have h1a : ¬ k₁ = k₀ := fun hh => h1 hh.symm
          simp [assocSet, h1, h1a]
      · by_cases h1 : k₀ = k₁
        · subst h1
          have h0a : ¬ k₀ = k := h0
          simp [assocSet, h0a]
        · simp [assocSet, h0, h1, ih]

theorem assocFind_orInsert (l : List (κ × α)) (k : κ) (v : α) (k₁ : κ) :
    assocFind (assocOrInsert l k v) k₁ =
      match assocFind l k₁ with
      | some w => some w
      | none => if k₁ = k then some v else none := by
  cases hfk : assocFind l k with
  | some w =>
      simp only [assocOrInsert, hfk]
      cases hf : assocFind l k₁ with
      | some u => simp
      | none =>
          by_cases hk : k₁ = k
          · subst hk
            rw [hfk] at hf
            cases hf
          · simp [hk]
  | none =>
      simp only [assocOrInsert, hfk]
      rw [assocFind_append]
      cases hf : assocFind l k₁ with
      | some u => simp
      | none =>
          by_cases hk : k₁ = k
          · subst hk
            simp [assocFind]
          · have hka : ¬ k = k₁ := fun hh => hk hh.symm
            simp [assocFind, hk, hka]

@[simp] theorem assocFind_orInsert_self (l : List (κ × α)) (k : κ) (v : α) :
    assocFind (assocOrInsert l k v) k = some ((assocFind l k).getD v) := by
  rw [assocFind_orInsert]
  cases hf : assocFind l k <;> simp [hf]

theorem assocFind_map {β : Type} (F : α → β) (l : List (κ × α)) (k : κ) :
    assocFind (l.map (fun p => (p.1, F p.2))) k = (assocFind l k).map F := by
  induction l with
  | nil => rfl
  | cons hd t ih =>
      obtain ⟨k₀, v₀⟩ := hd
      by_cases h : k₀ = k <;> simp [assocFind, h, ih]

end RatingUpdate

namespace RatingUpdate

/-! ### The Glicko-2 side of the data model -/

/-- Source: `glicko2::Glicko2Rating` — an internal-scale rating triple. -/
structure Glicko2Rating where
  value : ℚ
  deviation : ℚ
  volatility : ℚ
  deriving DecidableEq

/-- Modelled from the spec: `Glicko2Rating::unrated()` of the external
glicko2 crate — "Initial state for a newly encountered (player, character)
is the algorithm's unrated defaults", i.e. Glicko 1500 / RD 350 /
volatility 0.06 converted to the internal scale. -/
def Glicko2Rating.unrated : Glicko2Rating :=
  { value := 0, deviation := 350.0 / 173.7178, volatility := 0.06 }

/-- Source: `glicko2::GameResult` — a per-game outcome carrying the
opponent's (pre-period) rating. -/
inductive GameResult where
  | win (opponent : Glicko2Rating)
  | loss (opponent : Glicko2Rating)
  deriving DecidableEq

/-- The type of the external crate's `glicko2::new_rating(rating, results, sys_constant)`;
the embedding is parameterised over it. -/
abbrev NewRatingFn := Glicko2Rating → List GameResult → ℚ → Glicko2Rating

/-- Source: `pub struct RatedPlayer` (one row of `player_ratings`). -/
structure RatedPlayer where
  id : ℤ
  char_id : ℤ
  win_count : ℤ
  loss_count : ℤ
  rating : Glicko2Rating
  deriving DecidableEq

/-- Source: `RatedPlayer::new` — a fresh unrated entry. -/
def RatedPlayer.new (id : ℤ) (char_id : ℤ) : RatedPlayer :=
  { id := id, char_id := char_id, win_count := 0, loss_count := 0,
    rating := Glicko2Rating.unrated }

/-! ### Rows of the persistent store -/

/-- Source: `pub struct Game` (one row of `games`). -/
structure GameRec where
  timestamp : ℤ
  id_a : ℤ
  name_a : String
  char_a : ℤ
  id_b : ℤ
  name_b : String
  char_b : ℤ
  winner : ℤ
  game_floor : ℤ
  deriving DecidableEq

/-- One row of `game_ratings`: the pre-update snapshot appended per game. -/
structure GameRatingRec where
  timestamp : ℤ
  id_a : ℤ
  value_a : ℚ
  deviation_a : ℚ
  id_b : ℤ
  value_b : ℚ
  deviation_b : ℚ
  deriving DecidableEq

/-- One row of the three matchup tables (`player_matchups`,
`global_matchups`, `high_rated_matchups` carry the same four counters). -/
structure MatchupRow where
  wins_real : ℤ
  losses_real : ℤ
  wins_adjusted : ℝ
  losses_adjusted : ℝ

/-- The all-zero matchup row, as created by `INSERT OR IGNORE ... VALUES(.., 0, 0, 0, 0)`. -/
def MatchupRow.zero : MatchupRow :=
  { wins_real := 0, losses_real := 0, wins_adjusted := 0, losses_adjusted := 0 }

/-- One row of `versus_matchups`.  The stored `win_rate` is an f64 that is
NaN whenever the pair had no qualifying bucket (`0.0 / 0.0`); the undefined
value is modelled as `none`. -/
structure VersusRow where
  char_a : ℤ
  char_b : ℤ
  game_count : ℤ
  pair_count : ℤ
  win_rate : Option ℝ

/-- One row of `player_floor_distribution`. -/
structure FloorRow where
  floor : ℤ
  player_count : ℕ
  game_count : ℕ
  deriving DecidableEq

/-- One row of `player_rating_distribution`. -/
structure RatingDistRow where
  min_rating : ℤ
  max_rating : ℤ
  player_count : ℕ
  player_count_cum : ℕ
  deriving DecidableEq

/-- A `(player_id, character_id)` key. -/
abbrev PKey := ℤ × ℤ

/-- The persistent store (`ratings.sqlite`).  Keyed tables are association
lists keyed on their primary key (the keys are modelled from the spec, the
schema file `init.sql` not being part of the sources): `games` on
`(timestamp, id_a, id_b)`, `players` on `id`, `player_names` on
`(id, name)`, `player_ratings` on `(id, char_id)`.  The matchup tables are
total functions defaulting to the zero row. -/
structure DbState where
  games : List GameRec
  players : List (ℤ × String × ℤ)
  player_names : List (ℤ × String)
  player_ratings : List (PKey × RatedPlayer)
  game_ratings : List GameRatingRec
  player_matchups : ℤ × ℤ × ℤ → MatchupRow
  global_matchups : ℤ × ℤ → MatchupRow
  high_rated_matchups : ℤ × ℤ → MatchupRow
  versus_matchups : List VersusRow
  player_floor_distribution : List FloorRow
  player_rating_distribution : List RatingDistRow
  config_last_update : ℤ

/-- The freshly initialised store: `init.sql` creates all tables empty. -/
def DbState.empty : DbState :=
  { games := [], players := [], player_names := [], player_ratings := [],
    game_ratings := [], player_matchups := fun _ => MatchupRow.zero,
    global_matchups := fun _ => MatchupRow.zero,
    high_rated_matchups := fun _ => MatchupRow.zero,
    versus_matchups := [], player_floor_distribution := [],
    player_rating_distribution := [], config_last_update := 0 }

/-! ### Ingestion: `update_player` and `add_game` -/

/-- Source: `ggst_api::Winner` — the parsed winner of a match. -/
inductive Winner where
  | Player1
  | Player2
  deriving DecidableEq

/-- Source: `ggst_api::Match`, flattened — `floor.to_u8()` and
`character.to_u8()` are taken as the integers they map to. -/
structure MatchRec where
  timestamp : ℤ
  game_floor : ℤ
  winner : Winner
  id_a : ℤ
  char_a : ℤ
  name_a : String
  id_b : ℤ
  char_b : ℤ
  name_b : String

/-- Source: `fn update_player` — `REPLACE INTO players` keyed on `id`,
then `INSERT OR IGNORE INTO player_names` keyed on `(id, name)`. -/
def update_player (st : DbState) (id : ℤ) (name : String) (floor : ℤ) : DbState :=
  { st with
    players := assocSet st.players id (name, floor),
    player_names :=
      if (id, name) ∈ st.player_names then st.player_names
      else st.player_names ++ [(id, name)] }

/-- Does the `games` table already hold a row with this
`(timestamp, id_a, id_b)` key? -/
def hasGameKey (games : List GameRec) (ts ia ib : ℤ) : Prop :=
  ∃ g ∈ games, g.timestamp = ts ∧ g.id_a = ia ∧ g.id_b = ib

instance (games : List GameRec) (ts ia ib : ℤ) : Decidable (hasGameKey games ts ia ib) := by
  unfold hasGameKey; infer_instance

/-- Source: `fn add_game` — upsert both players, then
`INSERT OR IGNORE INTO games`; the uniqueness key `(timestamp, id_a, id_b)`
is modelled from the spec (`init.sql` is not among the sources). -/
def add_game (st : DbState) (game : MatchRec) : DbState :=
  let st := update_player st game.id_a game.name_a game.game_floor
  let st := update_player st game.id_b game.name_b game.game_floor
  if hasGameKey st.games game.timestamp game.id_a game.id_b then st
  else
    { st with
      games := st.games ++
        [{ timestamp := game.timestamp, id_a := game.id_a, name_a := game.name_a,
           char_a := game.char_a, id_b := game.id_b, name_b := game.name_b,
           char_b := game.char_b,
           winner := match game.winner with
             | Winner.Player1 => 1
             | Winner.Player2 => 2,
           game_floor := game.game_floor }] }

/-- Ingesting a batch of matches in one transaction (`grab_games` /
`load_json_data` both fold `add_game` over the fetched batch). -/
def add_games (st : DbState) (batch : List MatchRec) : DbState :=
  batch.foldl add_game st

@[simp] theorem update_player_games (st : DbState) (id : ℤ) (name : String) (floor : ℤ) :
    (update_player st id name floor).games = st.games := rfl

theorem add_game_games (st : DbState) (game : MatchRec) :
    (add_game st game).games =
      if hasGameKey st.games game.timestamp game.id_a game.id_b then st.games
      else st.games ++
        [{ timestamp := game.timestamp, id_a := game.id_a, name_a := game.name_a,
           char_a := game.char_a, id_b := game.id_b, name_b := game.name_b,
           char_b := game.char_b,
           winner := match game.winner with
             | Winner.Player1 => 1
             | Winner.Player2 => 2,
           game_floor := game.game_floor }] := by
  unfold add_game
  by_cases h : hasGameKey st.games game.timestamp game.id_a game.id_b <;>
    simp [h, update_player]

theorem hasGameKey_append (l₁ l₂ : List GameRec) (ts ia ib : ℤ) :
    hasGameKey l₁ ts ia ib → hasGameKey (l₁ ++ l₂) ts ia ib := by
  rintro ⟨g, hg, hk⟩
  exact ⟨g, List.mem_append_left _ hg, hk⟩

theorem hasGameKey_add_game (st : DbState) (game : MatchRec) (ts ia ib : ℤ)
    (h : hasGameKey st.games ts ia ib) :
    hasGameKey (add_game st game).games ts ia ib := by
  rw [add_game_games]
  by_cases hd : hasGameKey st.games game.timestamp game.id_a game.id_b
  · rw [if_pos hd]
    exact h
  · rw [if_neg hd]
    exact hasGameKey_append _ _ _ _ _ h

theorem hasGameKey_add_game_self (st : DbState) (game : MatchRec) :
    hasGameKey (add_game st game).games game.timestamp game.id_a game.id_b := by
  rw [add_game_games]
  by_cases hd : hasGameKey st.games game.timestamp game.id_a game.id_b
  · rw [if_pos hd]
    exact hd
  · rw [if_neg hd]
    refine ⟨_, List.mem_append_right _ (List.mem_singleton_self _), ?_⟩
    exact ⟨rfl, rfl, rfl⟩

theorem hasGameKey_add_games (st : DbState) (batch : List MatchRec) (ts ia ib : ℤ)
    (h : hasGameKey st.games ts ia ib) :
    hasGameKey (add_games st batch).games ts ia ib := by
  induction batch generalizing st with
  | nil => exact h
  | cons hd t ih => exact ih _ (hasGameKey_add_game _ _ _ _ _ h)

theorem hasGameKey_add_games_mem (st : DbState) (batch : List MatchRec) :
    ∀ m ∈ batch, hasGameKey (add_games st batch).games m.timestamp m.id_a m.id_b := by
  induction batch generalizing st with
  | nil => intro m hm; cases hm
  | cons hd t ih =>
      intro m hm
      rcases List.mem_cons.mp hm with hm | hm
      · rw [hm]
        exact hasGameKey_add_games (add_game st hd) t _ _ _
          (hasGameKey_add_game_self st hd)
      · exact ih (add_game st hd) m hm

theorem add_games_games_of_keys (st : DbState) (batch : List MatchRec)
    (h : ∀ m ∈ batch, hasGameKey st.games m.timestamp m.id_a m.id_b) :
    (add_games st batch).games = st.games := by
  induction batch generalizing st with
  | nil => rfl
  | cons hd t ih =>
      have hhd : hasGameKey st.games hd.timestamp hd.id_a hd.id_b :=
        h hd (List.mem_cons_self _ _)
      have hgames : (add_game st hd).games = st.games := by
        rw [add_game_games, if_pos hhd]
      have hrest : ∀ m ∈ t, hasGameKey (add_game st hd).games m.timestamp m.id_a m.id_b := by
        intro m hm
        rw [hgames]
        exact h m (List.mem_cons_of_mem _ hm)
      calc (add_games (add_game st hd) t).games = (add_game st hd).games := ih _ hrest
        _ = st.games := hgames

/-- C8: ingesting the same batch twice is a no-op on the `games` table, and
a single `add_game` whose `(timestamp, id_a, id_b)` key is already present
leaves `games` unchanged. -/
theorem add_game_deduplicates (batch : List MatchRec) (st : DbState) :
    (add_games (add_games st batch) batch).games = (add_games st batch).games ∧
    (∀ (st₁ : DbState) (game : MatchRec),
      hasGameKey st₁.games game.timestamp game.id_a game.id_b →
      (add_game st₁ game).games = st₁.games) := by
  constructor
  · exact add_games_games_of_keys _ _ (hasGameKey_add_games_mem st batch)
  · intro st₁ game h
    rw [add_game_games, if_pos h]

/-- A concrete match used by the witnesses. -/
def m0 : MatchRec :=
  { timestamp := 5, game_floor := 1, winner := Winner.Player1,
    id_a := 1, char_a := 0, name_a := "a", id_b := 2, char_b := 3, name_b := "b" }

/-- A second ingestion of the same `(timestamp, id_a, id_b)` key with a new
name and floor for player 1. -/
def m1 : MatchRec :=
  { timestamp := 5, game_floor := 2, winner := Winner.Player1,
    id_a := 1, char_a := 0, name_a := "c", id_b := 2, char_b := 3, name_b := "b" }

theorem add_game_deduplicates_witness :
    (add_games (add_games DbState.empty [m0]) [m0]).games =
      (add_games DbState.empty [m0]).games ∧
    (add_game (add_game DbState.empty m0) m0).games =
      (add_game DbState.empty m0).games :=
  ⟨(add_game_deduplicates [m0] DbState.empty).1,
   (add_game_deduplicates [m0] DbState.empty).2 (add_game DbState.empty m0) m0
     (hasGameKey_add_game_self DbState.empty m0)⟩

/-- C10: `add_game` always runs both player upserts before the game insert;
even on a duplicate game the `players` rows are overwritten with the match's
name and floor, the names are recorded in `player_names`, and only the
`games` table is left unchanged. -/
theorem add_game_upserts_players (st : DbState) (game : MatchRec)
    (hids : game.id_a ≠ game.id_b) :
    assocFind (add_game st game).players game.id_a =
      some (game.name_a, game.game_floor) ∧
    assocFind (add_game st game).players game.id_b =
      some (game.name_b, game.game_floor) ∧
    (game.id_a, game.name_a) ∈ (add_game st game).player_names ∧
    (game.id_b, game.name_b) ∈ (add_game st game).player_names ∧
    (hasGameKey st.games game.timestamp game.id_a game.id_b →
      (add_game st game).games = st.games) := by
  have hplayers : (add_game st game).players =
      assocSet (assocSet st.players game.id_a (game.name_a, game.game_floor))
        game.id_b (game.name_b, game.game_floor) := by
    unfold add_game
    by_cases h : hasGameKey st.games game.timestamp game.id_a game.id_b <;>
      simp [h, update_player]
  have hmem₁ : ∀ (l : List (ℤ × String)) (id : ℤ) (name : String),
      (id, name) ∈ (if (id, name) ∈ l then l else l ++ [(id, name)]) := by
    intro l id name
    by_cases h : (id, name) ∈ l
    · rw [if_pos h]
      exact h
    · rw [if_neg h]
      exact List.mem_append_right _ (List.mem_singleton_self _)
  have hmono : ∀ (l : List (ℤ × String)) (p q : ℤ × String),
      p ∈ l → p ∈ (if q ∈ l then l else l ++ [q]) := by
    intro l p q hp
    by_cases h : q ∈ l
    · rw [if_pos h]
      exact hp
    · rw [if_neg h]
      exact List.mem_append_left _ hp

  have hpn : (add_game st game).player_names =
      (update_player (update_player st game.id_a game.name_a game.game_floor)
        game.id_b game.name_b game.game_floor).player_names := by
    unfold add_game
    by_cases h : hasGameKey st.games game.timestamp game.id_a game.id_b <;>
      simp [h]
  refine ⟨?_, ?_, ?_, ?_, ?_⟩
  · rw [hplayers, assocFind_set]
    have : ¬ game.id_a = game.id_b := hids
    rw [if_neg this, assocFind_set, if_pos rfl]
  · rw [hplayers, assocFind_set, if_pos rfl]
  · rw [hpn]
    unfold update_player
    exact hmono _ _ _ (hmem₁ _ _ _)
  · rw [hpn]
    unfold update_player
    exact hmem₁ _ _ _
  · intro h
    rw [add_game_games, if_pos h]

/-! ### Distribution snapshot: `update_player_distribution` -/

/-- The count behind
`SELECT COUNT(*) FROM player_ratings WHERE value >= ? AND value < ? AND deviation < ?`
with the public-scale bounds converted through `glicko_to_glicko2`. -/
def rating_count_in (ratings : List (PKey × RatedPlayer)) (r_min r_max : ℤ) : ℕ :=
  ratings.countP (fun kp =>
    decide (glicko_to_glicko2 (r_min : ℚ) ≤ kp.2.rating.value ∧
      kp.2.rating.value < glicko_to_glicko2 (r_max : ℚ) ∧
      kp.2.rating.deviation < MAX_DEVIATION))

/-- The count behind
`SELECT COUNT(*) FROM player_ratings WHERE value < ? AND deviation < ?`. -/
def rating_count_below (ratings : List (PKey × RatedPlayer)) (r_max : ℤ) : ℕ :=
  ratings.countP (fun kp =>
    decide (kp.2.rating.value < glicko_to_glicko2 (r_max : ℚ) ∧
      kp.2.rating.deviation < MAX_DEVIATION))

/-- One iteration of the rating-bin loop of `update_player_distribution`:
bin `[50·r, 50·(r+1))`, skipped when it holds fewer than 10 established
players. -/
def make_bin (ratings : List (PKey × RatedPlayer)) (r : ℕ) : Option RatingDistRow :=
  if rating_count_in ratings ((r : ℤ) * 50) (((r : ℤ) + 1) * 50) < 10 then none
  else some
    { min_rating := (r : ℤ) * 50, max_rating := ((r : ℤ) + 1) * 50,
      player_count := rating_count_in ratings ((r : ℤ) * 50) (((r : ℤ) + 1) * 50),
      player_count_cum := rating_count_below ratings (((r : ℤ) + 1) * 50) }

/-- Source: `fn update_player_distribution` — truncate both distribution
tables, rebuild the floor distribution for floors 1..=10 and 99, and the
rating distribution for the 60 fifty-point bins. -/
def update_player_distribution (st : DbState) : DbState :=
  { st with
    player_floor_distribution :=
      (((List.range 10).map (fun f => (f : ℤ) + 1)) ++ [99]).map (fun f =>
        { floor := f,
          player_count := st.players.countP (fun p : ℤ × String × ℤ => decide (p.2.2 = f)),
          game_count := st.games.countP (fun g : GameRec => decide (g.game_floor = f)) }),
    player_rating_distribution :=
      (List.range 60).filterMap (make_bin st.player_ratings) }

/-- C7: a rating bin appears in `player_rating_distribution` iff at least
10 established players fall in it; every written row's cumulative count is
the number of established players strictly below the bin's upper bound, and
no written row has `player_count < 10`. -/
theorem update_player_distribution_bins (st : DbState) :
    (∀ r : ℕ, r < 60 →
      ((∃ row ∈ (update_player_distribution st).player_rating_distribution,
          row.min_rating = (r : ℤ) * 50) ↔
        10 ≤ rating_count_in st.player_ratings ((r : ℤ) * 50) (((r : ℤ) + 1) * 50))) ∧
    (∀ row ∈ (update_player_distribution st).player_rating_distribution,
      10 ≤ row.player_count ∧
      row.player_count_cum = rating_count_below st.player_ratings row.max_rating) := by
  constructor
  · intro r hr
    constructor
    · rintro ⟨row, hrow, hmin⟩
      rcases List.mem_filterMap.mp hrow with ⟨a, _, hfa⟩
      by_cases hc : rating_count_in st.player_ratings ((a : ℤ) * 50) (((a : ℤ) + 1) * 50) < 10
      · rw [make_bin, if_pos hc] at hfa
        cases hfa
      · rw [make_bin, if_neg hc] at hfa
        have hrow_eq := Option.some_inj.mp hfa
        have hmin' : (a : ℤ) * 50 = (r : ℤ) * 50 := by
          rw [← hrow_eq] at hmin
          exact hmin
        have har : a = r := by
          have h50 := mul_right_cancel₀ (by norm_num : (50 : ℤ) ≠ 0) hmin'
          exact_mod_cast h50
        rw [har] at hc
        exact not_lt.mp hc
    · intro h10
      refine ⟨{ min_rating := (r : ℤ) * 50, max_rating := ((r : ℤ) + 1) * 50,
                player_count :=
                  rating_count_in st.player_ratings ((r : ℤ) * 50) (((r : ℤ) + 1) * 50),
                player_count_cum :=
                  rating_count_below st.player_ratings (((r : ℤ) + 1) * 50) },
              List.mem_filterMap.mpr ⟨r, List.mem_range.mpr hr, ?_⟩, rfl⟩
      rw [make_bin, if_neg (not_lt.mpr h10)]
  · intro row hrow
    rcases List.mem_filterMap.mp hrow with ⟨a, _, hfa⟩
    by_cases hc : rating_count_in st.player_ratings ((a : ℤ) * 50) (((a : ℤ) + 1) * 50) < 10
    · rw [make_bin, if_pos hc] at hfa
      cases hfa
    · rw [make_bin, if_neg hc] at hfa
      have hrow_eq := Option.some_inj.mp hfa
      rw [← hrow_eq]
      exact ⟨not_lt.mp hc, rfl⟩

/-- An established rating row with internal value 0 (public rating 1500). -/
def wentry : PKey × RatedPlayer :=
  ((7, 0),
    { id := 7, char_id := 0, win_count := 0, loss_count := 0,
      rating := { value := 0, deviation := 0, volatility := 0.06 } })

/-- Ten established ratings with internal value 0 (the `player_ratings`
rows of the distribution witness). -/
def wratings : List (PKey × RatedPlayer) :=
  [wentry, wentry, wentry, wentry, wentry, wentry, wentry, wentry, wentry, wentry]

/-- A store whose `player_ratings` table is exactly `wratings`. -/
def stW : DbState := { DbState.empty with player_ratings := wratings }

theorem update_player_distribution_bins_witness :
    ∃ row ∈ (update_player_distribution stW).player_rating_distribution,
      row.min_rating = ((30 : ℕ) : ℤ) * 50 :=
  ((update_player_distribution_bins stW).1 30 (by norm_num)).mpr (by
    have hcount :
        rating_count_in stW.player_ratings (((30 : ℕ) : ℤ) * 50)
          ((((30 : ℕ) : ℤ) + 1) * 50) = 10 := by
      norm_num [rating_count_in, stW, wratings, wentry, glicko_to_glicko2,
        MAX_DEVIATION, List.countP_cons, List.countP_nil]
    rw [hcount])

theorem add_game_upserts_players_witness :
    assocFind (add_game (add_game DbState.empty m0) m1).players 1 = some ("c", 2) ∧
    (add_game (add_game DbState.empty m0) m1).games =
      (add_game DbState.empty m0).games := by
  have h := add_game_upserts_players (add_game DbState.empty m0) m1 (by decide)
  exact ⟨h.1, h.2.2.2.2 (hasGameKey_add_game_self DbState.empty m0)⟩

/-! ### The per-game matchup accumulator of `update_ratings` -/

/-- The ad-hoc logistic win probability used by `update_ratings` and
`calc_versus_matchups`:
`rating_a.value.exp() / (rating_a.value.exp() + rating_b.value.exp())`. -/
noncomputable def win_prob (va vb : ℚ) : ℝ :=
  Real.exp (va : ℝ) / (Real.exp (va : ℝ) + Real.exp (vb : ℝ))

/-- `SET wins_real = wins_real + 1`. -/
def rowAddWinsReal (row : MatchupRow) : MatchupRow :=
  { row with wins_real := row.wins_real + 1 }

/-- `SET losses_real = losses_real + 1`. -/
def rowAddLossesReal (row : MatchupRow) : MatchupRow :=
  { row with losses_real := row.losses_real + 1 }

/-- `SET wins_adjusted = wins_adjusted + ?`. -/
def rowAddWinsAdj (row : MatchupRow) (p : ℝ) : MatchupRow :=
  { row with wins_adjusted := row.wins_adjusted + p }

/-- `SET losses_adjusted = losses_adjusted + ?`. -/
def rowAddLossesAdj (row : MatchupRow) (p : ℝ) : MatchupRow :=
  { row with losses_adjusted := row.losses_adjusted + p }

/-- `SET wins_real = wins_real + 1, wins_adjusted = wins_adjusted + ?`. -/
def rowAddWin (row : MatchupRow) (p : ℝ) : MatchupRow :=
  { row with wins_real := row.wins_real + 1, wins_adjusted := row.wins_adjusted + p }

/-- `SET losses_real = losses_real + 1, losses_adjusted = losses_adjusted + ?`. -/
def rowAddLoss (row : MatchupRow) (p : ℝ) : MatchupRow :=
  { row with losses_real := row.losses_real + 1,
             losses_adjusted := row.losses_adjusted + p }

/-- An SQL `UPDATE ... WHERE key = k` on a keyed matchup table (the row is
guaranteed to exist by the preceding `INSERT OR IGNORE`, which in the
total-function model is a no-op). -/
def tupd {κ : Type} [DecidableEq κ] (t : κ → MatchupRow) (k : κ)
    (f : MatchupRow → MatchupRow) : κ → MatchupRow :=
  fun q => if q = k then f (t k) else t q

theorem tupd_self {κ : Type} [DecidableEq κ] (t : κ → MatchupRow) (k : κ)
    (f : MatchupRow → MatchupRow) : tupd t k f k = f (t k) := by
  simp [tupd]

theorem tupd_ne {κ : Type} [DecidableEq κ] (t : κ → MatchupRow) (k q : κ)
    (f : MatchupRow → MatchupRow) (h : q ≠ k) : tupd t k f q = t q := by
  simp [tupd, h]

theorem tupd_wr_of {κ : Type} [DecidableEq κ] (t : κ → MatchupRow) (k q : κ)
    (f : MatchupRow → MatchupRow) (hF : ∀ row, (f row).wins_real = row.wins_real) :
    ((tupd t k f) q).wins_real = (t q).wins_real := by
  unfold tupd
  by_cases h : q = k
  · subst h
    simp [hF]
  · simp [h]

theorem tupd_lr_of {κ : Type} [DecidableEq κ] (t : κ → MatchupRow) (k q : κ)
    (f : MatchupRow → MatchupRow) (hF : ∀ row, (f row).losses_real = row.losses_real) :
    ((tupd t k f) q).losses_real = (t q).losses_real := by
  unfold tupd
  by_cases h : q = k
  · subst h
    simp [hF]
  · simp [h]

theorem tupd_wa_of {κ : Type} [DecidableEq κ] (t : κ → MatchupRow) (k q : κ)
    (f : MatchupRow → MatchupRow) (hF : ∀ row, (f row).wins_adjusted = row.wins_adjusted) :
    ((tupd t k f) q).wins_adjusted = (t q).wins_adjusted := by
  unfold tupd
  by_cases h : q = k
  · subst h
    simp [hF]
  · simp [h]

theorem tupd_la_of {κ : Type} [DecidableEq κ] (t : κ → MatchupRow) (k q : κ)
    (f : MatchupRow → MatchupRow) (hF : ∀ row, (f row).losses_adjusted = row.losses_adjusted) :
    ((tupd t k f) q).losses_adjusted = (t q).losses_adjusted := by
  unfold tupd
  by_cases h : q = k
  · subst h
    simp [hF]
  · simp [h]

/-- The matchup-table side effects of one game inside `update_ratings`,
with `rating_a`, `rating_b` the two pre-update ratings: the real counters
of `player_matchups` always move; the adjusted counters, `global_matchups`
and (further gated on `HIGH_RATING`) `high_rated_matchups` move only when
both deviations are below `MAX_DEVIATION`.  Note that in the
`winner == 2` arm the high-rated updates use `b_win_prob`, exactly as the
source does. -/
noncomputable def matchupStep (st : DbState) (g : GameRec)
    (rating_a rating_b : Glicko2Rating) : DbState :=
  if g.winner = 1 then
    if rating_a.deviation < MAX_DEVIATION ∧ rating_b.deviation < MAX_DEVIATION then
      if rating_a.value > HIGH_RATING ∧ rating_b.value > HIGH_RATING then
        { st with
          player_matchups :=
            tupd (tupd (tupd (tupd st.player_matchups
                  (g.id_a, g.char_a, g.char_b) rowAddWinsReal)
                (g.id_b, g.char_b, g.char_a) rowAddLossesReal)
              (g.id_a, g.char_a, g.char_b)
              (fun row => rowAddWinsAdj row (1 - win_prob rating_a.value rating_b.value)))
              (g.id_b, g.char_b, g.char_a)
              (fun row => rowAddLossesAdj row (1 - win_prob rating_a.value rating_b.value)),
          global_matchups :=
            tupd (tupd st.global_matchups (g.char_a, g.char_b)
                (fun row => rowAddWin row (1 - win_prob rating_a.value rating_b.value)))
              (g.char_b, g.char_a)
              (fun row => rowAddLoss row (1 - win_prob rating_a.value rating_b.value)),
          high_rated_matchups :=
            tupd (tupd st.high_rated_matchups (g.char_a, g.char_b)
                (fun row => rowAddWin row (1 - win_prob rating_a.value rating_b.value)))
              (g.char_b, g.char_a)
              (fun row => rowAddLoss row (1 - win_prob rating_a.value rating_b.value)) }
      else
        { st with
          player_matchups :=
            tupd (tupd (tupd (tupd st.player_matchups
                  (g.id_a, g.char_a, g.char_b) rowAddWinsReal)
                (g.id_b, g.char_b, g.char_a) rowAddLossesReal)
              (g.id_a, g.char_a, g.char_b)
              (fun row => rowAddWinsAdj row (1 - win_prob rating_a.value rating_b.value)))
              (g.id_b, g.char_b, g.char_a)
              (fun row => rowAddLossesAdj row (1 - win_prob rating_a.value rating_b.value)),
          global_matchups :=
            tupd (tupd st.global_matchups (g.char_a, g.char_b)
                (fun row => rowAddWin row (1 - win_prob rating_a.value rating_b.value)))
              (g.char_b, g.char_a)
              (fun row => rowAddLoss row (1 - win_prob rating_a.value rating_b.value)) }
    else
      { st with
        player_matchups :=
          tupd (tupd st.player_matchups (g.id_a, g.char_a, g.char_b) rowAddWinsReal)
            (g.id_b, g.char_b, g.char_a) rowAddLossesReal }
  else if g.winner = 2 then
    if rating_a.deviation < MAX_DEVIATION ∧ rating_b.deviation < MAX_DEVIATION then
      if rating_a.value > HIGH_RATING ∧ rating_b.value > HIGH_RATING then
        { st with
          player_matchups :=
            tupd (tupd (tupd (tupd st.player_matchups
                  (g.id_a, g.char_a, g.char_b) rowAddLossesReal)
                (g.id_b, g.char_b, g.char_a) rowAddWinsReal)
              (g.id_a, g.char_a, g.char_b)
              (fun row => rowAddLossesAdj row (win_prob rating_a.value rating_b.value)))
              (g.id_b, g.char_b, g.char_a)
              (fun row => rowAddWinsAdj row (win_prob rating_a.value rating_b.value)),
          global_matchups :=
            tupd (tupd st.global_matchups (g.char_b, g.char_a)
                (fun row => rowAddWin row (win_prob rating_a.value rating_b.value)))
              (g.char_a, g.char_b)
              (fun row => rowAddLoss row (win_prob rating_a.value rating_b.value)),
          high_rated_matchups :=
            tupd (tupd st.high_rated_matchups (g.char_b, g.char_a)
                (fun row => rowAddWin row (1 - win_prob rating_a.value rating_b.value)))
              (g.char_a, g.char_b)
              (fun row => rowAddLoss row (1 - win_prob rating_a.value rating_b.value)) }
      else
        { st with
          player_matchups :=
            tupd (tupd (tupd (tupd st.player_matchups
                  (g.id_a, g.char_a, g.char_b) rowAddLossesReal)
                (g.id_b, g.char_b, g.char_a) rowAddWinsReal)
              (g.id_a, g.char_a, g.char_b)
              (fun row => rowAddLossesAdj row (win_prob rating_a.value rating_b.value)))
              (g.id_b, g.char_b, g.char_a)
              (fun row => rowAddWinsAdj row (win_prob rating_a.value rating_b.value)),
          global_matchups :=
            tupd (tupd st.global_matchups (g.char_b, g.char_a)
                (fun row => rowAddWin row (win_prob rating_a.value rating_b.value)))
              (g.char_a, g.char_b)
              (fun row => rowAddLoss row (win_prob rating_a.value rating_b.value)) }
    else
      { st with
        player_matchups :=
          tupd (tupd st.player_matchups (g.id_a, g.char_a, g.char_b) rowAddLossesReal)
            (g.id_b, g.char_b, g.char_a) rowAddWinsReal }
  else st

section RowProjections

variable {κ : Type} [DecidableEq κ] (t : κ → MatchupRow) (k q : κ) (p : ℝ)

@[simp] theorem tupd_wr_AWR : ((tupd t k rowAddWinsReal) k).wins_real = (t k).wins_real + 1 := by
  simp [tupd, rowAddWinsReal]

@[simp] theorem tupd_wr_AW :
    ((tupd t k (fun row => rowAddWin row p)) k).wins_real = (t k).wins_real + 1 := by
  simp [tupd, rowAddWin]

@[simp] theorem tupd_wr_ALR : ((tupd t k rowAddLossesReal) q).wins_real = (t q).wins_real :=
  tupd_wr_of t k q _ (fun _ => rfl)

@[simp] theorem tupd_wr_AWA :
    ((tupd t k (fun row => rowAddWinsAdj row p)) q).wins_real = (t q).wins_real :=
  tupd_wr_of t k q _ (fun _ => rfl)

@[simp] theorem tupd_wr_ALA :
    ((tupd t k (fun row => rowAddLossesAdj row p)) q).wins_real = (t q).wins_real :=
  tupd_wr_of t k q _ (fun _ => rfl)

@[simp] theorem tupd_wr_AL :
    ((tupd t k (fun row => rowAddLoss row p)) q).wins_real = (t q).wins_real :=
  tupd_wr_of t k q _ (fun _ => rfl)

@[simp] theorem tupd_lr_ALR : ((tupd t k rowAddLossesReal) k).losses_real = (t k).losses_real + 1 := by
  simp [tupd, rowAddLossesReal]

@[simp] theorem tupd_lr_AL :
    ((tupd t k (fun row => rowAddLoss row p)) k).losses_real = (t k).losses_real + 1 := by
  simp [tupd, rowAddLoss]

@[simp] theorem tupd_lr_AWR : ((tupd t k rowAddWinsReal) q).losses_real = (t q).losses_real :=
  tupd_lr_of t k q _ (fun _ => rfl)

@[simp] theorem tupd_lr_AWA :
    ((tupd t k (fun row => rowAddWinsAdj row p)) q).losses_real = (t q).losses_real :=
  tupd_lr_of t k q _ (fun _ => rfl)

@[simp] theorem tupd_lr_ALA :
    ((tupd t k (fun row => rowAddLossesAdj row p)) q).losses_real = (t q).losses_real :=
  tupd_lr_of t k q _ (fun _ => rfl)

@[simp] theorem tupd_lr_AW :
    ((tupd t k (fun row => rowAddWin row p)) q).losses_real = (t q).losses_real :=
  tupd_lr_of t k q _ (fun _ => rfl)

@[simp] theorem tupd_wa_AWA :
    ((tupd t k (fun row => rowAddWinsAdj row p)) k).wins_adjusted = (t k).wins_adjusted + p := by
  simp [tupd, rowAddWinsAdj]

@[simp] theorem tupd_wa_AW :
    ((tupd t k (fun row => rowAddWin row p)) k).wins_adjusted = (t k).wins_adjusted + p := by
  simp [tupd, rowAddWin]

@[simp] theorem tupd_wa_AWR : ((tupd t k rowAddWinsReal) q).wins_adjusted = (t q).wins_adjusted :=
  tupd_wa_of t k q _ (fun _ => rfl)

@[simp] theorem tupd_wa_ALR : ((tupd t k rowAddLossesReal) q).wins_adjusted = (t q).wins_adjusted :=
  tupd_wa_of t k q _ (fun _ => rfl)

@[simp] theorem tupd_wa_ALA :
    ((tupd t k (fun row => rowAddLossesAdj row p)) q).wins_adjusted = (t q).wins_adjusted :=
  tupd_wa_of t k q _ (fun _ => rfl)

@[simp] theorem tupd_wa_AL :
    ((tupd t k (fun row => rowAddLoss row p)) q).wins_adjusted = (t q).wins_adjusted :=
  tupd_wa_of t k q _ (fun _ => rfl)

@[simp] theorem tupd_la_ALA :
    ((tupd t k (fun row => rowAddLossesAdj row p)) k).losses_adjusted
      = (t k).losses_adjusted + p := by
  simp [tupd, rowAddLossesAdj]

@[simp] theorem tupd_la_AL :
    ((tupd t k (fun row => rowAddLoss row p)) k).losses_adjusted
      = (t k).losses_adjusted + p := by
  simp [tupd, rowAddLoss]

@[simp] theorem tupd_la_AWR : ((tupd t k rowAddWinsReal) q).losses_adjusted = (t q).losses_adjusted :=
  tupd_la_of t k q _ (fun _ => rfl)

@[simp] theorem tupd_la_ALR : ((tupd t k rowAddLossesReal) q).losses_adjusted = (t q).losses_adjusted :=
  tupd_la_of t k q _ (fun _ => rfl)

@[simp] theorem tupd_la_AWA :
    ((tupd t k (fun row => rowAddWinsAdj row p)) q).losses_adjusted = (t q).losses_adjusted :=
  tupd_la_of t k q _ (fun _ => rfl)

@[simp] theorem tupd_la_AW :
    ((tupd t k (fun row => rowAddWin row p)) q).losses_adjusted = (t q).losses_adjusted :=
  tupd_la_of t k q _ (fun _ => rfl)

end RowProjections

/-- C1 (amended): when both pre-update deviations are below
`MAX_DEVIATION`, the `winner == 1` arm adds `p_b` to every adjusted counter
it touches (player, global and — when additionally gated on `HIGH_RATING`
— high-rated); the `winner == 2` arm adds `p_a` to the player and global
adjusted counters but `p_b` to the high-rated ones, exactly as the source's
`b_win_prob` arguments do. -/
theorem matchup_adjusted_increments (st : DbState) (g : GameRec)
    (ra rb : Glicko2Rating)
    (hdev : ra.deviation < MAX_DEVIATION ∧ rb.deviation < MAX_DEVIATION) :
    (g.winner = 1 →
      ((matchupStep st g ra rb).player_matchups (g.id_a, g.char_a, g.char_b)).wins_adjusted
          = (st.player_matchups (g.id_a, g.char_a, g.char_b)).wins_adjusted
            + (1 - win_prob ra.value rb.value) ∧
      ((matchupStep st g ra rb).player_matchups (g.id_b, g.char_b, g.char_a)).losses_adjusted
          = (st.player_matchups (g.id_b, g.char_b, g.char_a)).losses_adjusted
            + (1 - win_prob ra.value rb.value) ∧
      ((matchupStep st g ra rb).global_matchups (g.char_a, g.char_b)).wins_adjusted
          = (st.global_matchups (g.char_a, g.char_b)).wins_adjusted
            + (1 - win_prob ra.value rb.value) ∧
      ((matchupStep st g ra rb).global_matchups (g.char_b, g.char_a)).losses_adjusted
          = (st.global_matchups (g.char_b, g.char_a)).losses_adjusted
            + (1 - win_prob ra.value rb.value) ∧
      (ra.value > HIGH_RATING ∧ rb.value > HIGH_RATING →
        ((matchupStep st g ra rb).high_rated_matchups (g.char_a, g.char_b)).wins_adjusted
            = (st.high_rated_matchups (g.char_a, g.char_b)).wins_adjusted
              + (1 - win_prob ra.value rb.value) ∧
        ((matchupStep st g ra rb).high_rated_matchups (g.char_b, g.char_a)).losses_adjusted
            = (st.high_rated_matchups (g.char_b, g.char_a)).losses_adjusted
              + (1 - win_prob ra.value rb.value))) ∧
    (g.winner = 2 →
      ((matchupStep st g ra rb).player_matchups (g.id_a, g.char_a, g.char_b)).losses_adjusted
          = (st.player_matchups (g.id_a, g.char_a, g.char_b)).losses_adjusted
            + win_prob ra.value rb.value ∧
      ((matchupStep st g ra rb).player_matchups (g.id_b, g.char_b, g.char_a)).wins_adjusted
          = (st.player_matchups (g.id_b, g.char_b, g.char_a)).wins_adjusted
            + win_prob ra.value rb.value ∧
      ((matchupStep st g ra rb).global_matchups (g.char_b, g.char_a)).wins_adjusted
          = (st.global_matchups (g.char_b, g.char_a)).wins_adjusted
            + win_prob ra.value rb.value ∧
      ((matchupStep st g ra rb).global_matchups (g.char_a, g.char_b)).losses_adjusted
          = (st.global_matchups (g.char_a, g.char_b)).losses_adjusted
            + win_prob ra.value rb.value ∧
      (ra.value > HIGH_RATING ∧ rb.value > HIGH_RATING →
        ((matchupStep st g ra rb).high_rated_matchups (g.char_b, g.char_a)).wins_adjusted
            = (st.high_rated_matchups (g.char_b, g.char_a)).wins_adjusted
              + (1 - win_prob ra.value rb.value) ∧
        ((matchupStep st g ra rb).high_rated_matchups (g.char_a, g.char_b)).losses_adjusted
            = (st.high_rated_matchups (g.char_a, g.char_b)).losses_adjusted
              + (1 - win_prob ra.value rb.value))) := by
  constructor
  · intro hw
    unfold matchupStep
    rw [if_pos hw, if_pos hdev]
    by_cases hh : ra.value > HIGH_RATING ∧ rb.value > HIGH_RATING
    · rw [if_pos hh]
      exact ⟨by simp, by simp, by simp, by simp, fun _ => ⟨by simp, by simp⟩⟩
    · rw [if_neg hh]
      exact ⟨by simp, by simp, by simp, by simp, fun hcon => absurd hcon hh⟩
  · intro hw
    have hne : ¬ g.winner = 1 := by
      rw [hw]
      decide
    unfold matchupStep
    rw [if_neg hne, if_pos hw, if_pos hdev]
    by_cases hh : ra.value > HIGH_RATING ∧ rb.value > HIGH_RATING
    · rw [if_pos hh]
      exact ⟨by simp, by simp, by simp, by simp, fun _ => ⟨by simp, by simp⟩⟩
    · rw [if_neg hh]
      exact ⟨by simp, by simp, by simp, by simp, fun hcon => absurd hcon hh⟩

/-- A concrete high-rated, established game with `winner == 2`. -/
def gX : GameRec :=
  { timestamp := 0, id_a := 1, name_a := "a", char_a := 0,
    id_b := 2, name_b := "b", char_b := 1, winner := 2, game_floor := 1 }

/-- Player A's pre-update rating in the C1 counterexample. -/
def raX : Glicko2Rating := { value := 2, deviation := 0, volatility := 0.06 }

/-- Player B's pre-update rating in the C1 counterexample. -/
def rbX : Glicko2Rating := { value := 3, deviation := 0, volatility := 0.06 }

/-- C1 counterexample: on a `winner == 2` game between established
high-rated players of unequal value, the high-rated winner-row adjusted
increment is not `p_a` (the source adds `b_win_prob` there). -/
theorem matchup_high_rated_not_a_win_prob :
    ((matchupStep DbState.empty gX raX rbX).high_rated_matchups (1, 0)).wins_adjusted ≠
      (DbState.empty.high_rated_matchups (1, 0)).wins_adjusted
        + win_prob raX.value rbX.value := by
  have hne : ¬ gX.winner = 1 := by decide
  have hw : gX.winner = 2 := rfl
  have hdev : raX.deviation < MAX_DEVIATION ∧ rbX.deviation < MAX_DEVIATION := by
    constructor <;> norm_num [raX, rbX, MAX_DEVIATION]
  have hh : raX.value > HIGH_RATING ∧ rbX.value > HIGH_RATING := by
    constructor <;> norm_num [raX, rbX, HIGH_RATING]
  have hstep :
      ((matchupStep DbState.empty gX raX rbX).high_rated_matchups (1, 0)).wins_adjusted
        = (DbState.empty.high_rated_matchups (1, 0)).wins_adjusted
          + (1 - win_prob raX.value rbX.value) := by
    unfold matchupStep
    rw [if_neg hne, if_pos hw, if_pos hdev, if_pos hh]
    simp [gX]
  rw [hstep]
  have hcast2 : ((raX.value : ℚ) : ℝ) = 2 := by
    norm_num [raX]
  have hcast3 : ((rbX.value : ℚ) : ℝ) = 3 := by
    norm_num [rbX]
  unfold win_prob
  rw [hcast2, hcast3]
  have hs : (0 : ℝ) < Real.exp 2 + Real.exp 3 := by positivity
  have hs' : Real.exp 2 + Real.exp 3 ≠ 0 := ne_of_gt hs
  intro hc
  have hc' : 1 - Real.exp 2 / (Real.exp 2 + Real.exp 3)
      = Real.exp 2 / (Real.exp 2 + Real.exp 3) := by
    have := add_left_cancel hc
    linarith [this]
  have h23 : Real.exp 2 = Real.exp 3 := by
    field_simp at hc'
  have hfin : (2 : ℝ) = 3 := Real.exp_eq_exp.mp h23
  norm_num at hfin

theorem matchup_adjusted_increments_witness :
    ((matchupStep DbState.empty gX raX rbX).global_matchups (1, 0)).wins_adjusted
      = (DbState.empty.global_matchups (1, 0)).wins_adjusted
        + win_prob raX.value rbX.value := by
  have h := (matchup_adjusted_increments DbState.empty gX raX rbX
    ⟨by norm_num [raX, MAX_DEVIATION], by norm_num [rbX, MAX_DEVIATION]⟩).2 rfl
  have h3 := h.2.2.1
  simpa [gX] using h3

/-! ### The versus-matchup deriver: `calc_versus_matchups` -/

/-- One row of
`SELECT id_a, char_a, value_a, id_b, char_b, value_b, winner
 FROM games NATURAL JOIN game_ratings` (the deviations are carried along
because the `WHERE` clause reads them). -/
structure JoinedRow where
  id_a : ℤ
  char_a : ℤ
  value_a : ℚ
  deviation_a : ℚ
  id_b : ℤ
  char_b : ℤ
  value_b : ℚ
  deviation_b : ℚ
  winner : ℤ

/-- The `WHERE` filter of the versus query:
`value_a > HIGH_RATING AND deviation_a < MAX_DEVIATION AND value_b > HIGH_RATING AND deviation_b < MAX_DEVIATION`. -/
def qualifies (r : JoinedRow) : Prop :=
  r.value_a > HIGH_RATING ∧ r.deviation_a < MAX_DEVIATION ∧
    r.value_b > HIGH_RATING ∧ r.deviation_b < MAX_DEVIATION

instance (r : JoinedRow) : Decidable (qualifies r) := by
  unfold qualifies
  infer_instance

/-- The canonicalisation of one joined row: the lower character first, the
winner flipped when the sides are swapped, equal characters dropped. -/
def canonical (r : JoinedRow) : Option ((ℤ × ℤ) × (ℤ × ℤ) × ℚ × ℚ × ℤ) :=
  if r.char_a < r.char_b then
    some ((r.id_a, r.char_a), (r.id_b, r.char_b), r.value_a, r.value_b, r.winner)
  else if r.char_b < r.char_a then
    some ((r.id_b, r.char_b), (r.id_a, r.char_a), r.value_b, r.value_a,
      if r.winner = 1 then 2 else 1)
  else none

/-- The key of the per-player-pair accumulator:
`((id_low, char_low), (id_high, char_high))`. -/
abbrev VKey := (ℤ × ℤ) × (ℤ × ℤ)

/-- A bucket of the accumulator:
`(low_wins_weighted, high_wins_weighted, game_count)`. -/
abbrev Bucket := ℝ × ℝ × ℤ

/-- One iteration of the accumulation loop of `calc_versus_matchups`
(`pairs.entry((a, b)).or_insert((0.0, 0.0, 0))` followed by the `match` on
the canonical winner and `p.2 += 1`). -/
noncomputable def vsStep (pairs : List (VKey × Bucket)) (r : JoinedRow) :
    List (VKey × Bucket) :=
  if qualifies r then
    match canonical r with
    | none => pairs
    | some (a, b, v_a, v_b, w) =>
        if w = 1 then
          assocSet pairs (a, b)
            ((((assocFind pairs (a, b)).getD (0, 0, 0)).1 + (1 - win_prob v_a v_b)),
             ((assocFind pairs (a, b)).getD (0, 0, 0)).2.1,
             ((assocFind pairs (a, b)).getD (0, 0, 0)).2.2 + 1)
        else if w = 2 then
          assocSet pairs (a, b)
            (((assocFind pairs (a, b)).getD (0, 0, 0)).1,
             (((assocFind pairs (a, b)).getD (0, 0, 0)).2.1 + win_prob v_a v_b),
             ((assocFind pairs (a, b)).getD (0, 0, 0)).2.2 + 1)
        else
          assocSet pairs (a, b) ((assocFind pairs (a, b)).getD (0, 0, 0))
  else pairs

/-- The whole accumulation pass over the joined rows. -/
noncomputable def accumPairs (rows : List JoinedRow) : List (VKey × Bucket) :=
  rows.foldl vsStep []

/-- The buckets selected for the character pair `(a, b)`. -/
def versus_sel (pairs : List (VKey × Bucket)) (a b : ℤ) : List (VKey × Bucket) :=
  pairs.filter (fun kv => decide (kv.1.1.2 = a ∧ kv.1.2.2 = b))

/-- `sum` of per-bucket win shares `wins / (wins + losses)` over the
selected buckets. -/
noncomputable def versus_sum (pairs : List (VKey × Bucket)) (a b : ℤ) : ℝ :=
  ((versus_sel pairs a b).map (fun kv => kv.2.1 / (kv.2.1 + kv.2.2.1))).sum

/-- `probability = sum / pair_count as f64` (the unweighted mean of win
shares).  When no bucket is selected the source divides `0.0` by `0.0`,
which is NaN in f64 arithmetic (and is stored as such); the undefined
result is modelled as `none`. -/
noncomputable def versus_probability (pairs : List (VKey × Bucket)) (a b : ℤ) : Option ℝ :=
  if (versus_sel pairs a b).length = 0 then none
  else some (versus_sum pairs a b / ((versus_sel pairs a b).length : ℝ))

/-- Total `game_count` over the selected buckets. -/
def versus_game_count (pairs : List (VKey × Bucket)) (a b : ℤ) : ℤ :=
  ((versus_sel pairs a b).map (fun kv => kv.2.2.2)).sum

/-- The first `INSERT INTO versus_matchups` row of the `(a, b)` iteration. -/
noncomputable def versus_row_ab (pairs : List (VKey × Bucket)) (a b : ℤ) : VersusRow :=
  { char_a := a, char_b := b, game_count := versus_game_count pairs a b,
    pair_count := ((versus_sel pairs a b).length : ℤ),
    win_rate := versus_probability pairs a b }

/-- The second `INSERT INTO versus_matchups` row of the `(a, b)` iteration. -/
noncomputable def versus_row_ba (pairs : List (VKey × Bucket)) (a b : ℤ) : VersusRow :=
  { char_a := b, char_b := a, game_count := versus_game_count pairs a b,
    pair_count := ((versus_sel pairs a b).length : ℤ),
    win_rate := (versus_probability pairs a b).map (fun p => 1 - p) }

/-- The two rows written for the pair iteration `(a, b)`. -/
noncomputable def versus_pair_rows (pairs : List (VKey × Bucket)) (a b : ℤ) :
    List VersusRow :=
  [versus_row_ab pairs a b, versus_row_ba pairs a b]

/-- Source: `pub fn calc_versus_matchups` — accumulate the qualifying
joined rows into per-player-pair buckets, truncate `versus_matchups`, then
for every `a` in `0..char_count-1` and `b` in `a+1..char_count` insert the
two rows of the pair.  `char_count` stands for `website::CHAR_NAMES.len()`
(the roster size, fixed at build time); the joined rows are the result of
the SQL query. -/
noncomputable def calc_versus_matchups (char_count : ℕ) (rows : List JoinedRow) :
    List VersusRow :=
  (List.range char_count).flatMap (fun a =>
    ((List.range char_count).filter (fun b => decide (a < b))).flatMap (fun b =>
      versus_pair_rows (accumPairs rows) (a : ℤ) (b : ℤ)))

@[simp] theorem versus_row_ab_char_a (pairs : List (VKey × Bucket)) (a b : ℤ) :
    (versus_row_ab pairs a b).char_a = a := rfl

@[simp] theorem versus_row_ab_char_b (pairs : List (VKey × Bucket)) (a b : ℤ) :
    (versus_row_ab pairs a b).char_b = b := rfl

@[simp] theorem versus_row_ba_char_a (pairs : List (VKey × Bucket)) (a b : ℤ) :
    (versus_row_ba pairs a b).char_a = b := rfl

@[simp] theorem versus_row_ba_char_b (pairs : List (VKey × Bucket)) (a b : ℤ) :
    (versus_row_ba pairs a b).char_b = a := rfl

/-- C4 counterexample: with an empty store and a two-character roster, the
rebuild still writes a `(0, 1)` row, its `pair_count` is `0`, so the stored
win rate is the source's `0.0 / 0.0 = NaN` (`none`): no row of the table —
in particular not the `(1, 0)` partner — sums with it to `1`. -/
theorem versus_matchups_mirror_nan :
    ∃ row ∈ calc_versus_matchups 2 [],
      row.pair_count = 0 ∧ row.win_rate = none ∧
      ∀ row2 ∈ calc_versus_matchups 2 [],
        ¬ ∃ p q : ℝ, row.win_rate = some p ∧ row2.win_rate = some q ∧ p + q = 1 := by
  have hnone : (versus_row_ab (accumPairs []) 0 1).win_rate = none := by
    show versus_probability (accumPairs []) 0 1 = none
    simp [versus_probability, versus_sel, accumPairs]
  refine ⟨versus_row_ab (accumPairs []) 0 1, ?_, ?_, hnone, ?_⟩
  · simp [calc_versus_matchups, versus_pair_rows, List.range_succ]
  · simp [versus_row_ab, versus_sel, accumPairs]
  · rintro row2 _ ⟨p, q, hp, _, _⟩
    rw [hnone] at hp
    cases hp

/-- C4 (amended): every row of the rebuilt versus table whose win rate is
defined (`pair_count > 0`; a bucketless pair's rate is the source's
`0.0 / 0.0 = NaN`, modelled `none`) has a mirrored partner with a defined,
complementary win rate and identical counts. -/
theorem versus_matchups_mirror (char_count : ℕ) (rows : List JoinedRow) :
    ∀ row ∈ calc_versus_matchups char_count rows, ∀ p : ℝ, row.win_rate = some p →
      ∃ row2 ∈ calc_versus_matchups char_count rows,
        row2.char_a = row.char_b ∧ row2.char_b = row.char_a ∧
        (∃ q : ℝ, row2.win_rate = some q ∧ p + q = 1) ∧
        row2.game_count = row.game_count ∧ row2.pair_count = row.pair_count := by
  intro row hrow p hp
  rcases List.mem_flatMap.mp hrow with ⟨a, ha, hrow1⟩
  rcases List.mem_flatMap.mp hrow1 with ⟨b, hb, hrow2⟩
  have hmem_ab : versus_row_ab (accumPairs rows) (a : ℤ) (b : ℤ)
      ∈ calc_versus_matchups char_count rows :=
    List.mem_flatMap.mpr ⟨a, ha, List.mem_flatMap.mpr ⟨b, hb, by
      simp [versus_pair_rows]⟩⟩
  have hmem_ba : versus_row_ba (accumPairs rows) (a : ℤ) (b : ℤ)
      ∈ calc_versus_matchups char_count rows :=
    List.mem_flatMap.mpr ⟨a, ha, List.mem_flatMap.mpr ⟨b, hb, by
      simp [versus_pair_rows]⟩⟩
  have hcases : row = versus_row_ab (accumPairs rows) (a : ℤ) (b : ℤ) ∨
      row = versus_row_ba (accumPairs rows) (a : ℤ) (b : ℤ) := by
    simpa [versus_pair_rows] using hrow2
  rcases hcases with h | h
  · rw [h] at hp
    replace hp : versus_probability (accumPairs rows) (a : ℤ) (b : ℤ) = some p := hp
    refine ⟨versus_row_ba (accumPairs rows) (a : ℤ) (b : ℤ), hmem_ba, ?_, ?_,
      ⟨1 - p, ?_, by ring⟩, ?_, ?_⟩
    · simp [h]
    · simp [h]
    · show (versus_probability (accumPairs rows) (a : ℤ) (b : ℤ)).map
        (fun x => 1 - x) = some (1 - p)
      rw [hp]
      rfl
    · simp [h, versus_row_ab, versus_row_ba]
    · simp [h, versus_row_ab, versus_row_ba]
  · rw [h] at hp
    replace hp : (versus_probability (accumPairs rows) (a : ℤ) (b : ℤ)).map
        (fun x => 1 - x) = some p := hp
    rcases hprob : versus_probability (accumPairs rows) (a : ℤ) (b : ℤ) with _ | p'
    · rw [hprob] at hp
      exact absurd hp (by simp)
    · rw [hprob] at hp
      have hpq : 1 - p' = p := by simpa using hp
      refine ⟨versus_row_ab (accumPairs rows) (a : ℤ) (b : ℤ), hmem_ab, ?_, ?_,
        ⟨p', hprob, ?_⟩, ?_, ?_⟩
      · simp [h]
      · simp [h]
      · rw [← hpq]
        ring
      · simp [h, versus_row_ab, versus_row_ba]
      · simp [h, versus_row_ab, versus_row_ba]

/-- A joined row that qualifies for the versus accumulation and populates
the `(0, 1)` character-pair bucket: both values above `HIGH_RATING`, both
deviations below `MAX_DEVIATION`, characters `0` and `1`, winner 1. -/
def rQ : JoinedRow :=
  { id_a := 1, char_a := 0, value_a := 2, deviation_a := 0,
    id_b := 2, char_b := 1, value_b := 3, deviation_b := 0, winner := 1 }

theorem versus_matchups_mirror_witness :
    ∃ row2 ∈ calc_versus_matchups 2 [rQ],
      row2.char_a = (versus_row_ab (accumPairs [rQ]) 0 1).char_b ∧
      row2.char_b = (versus_row_ab (accumPairs [rQ]) 0 1).char_a ∧
      (∃ q : ℝ, row2.win_rate = some q ∧
        versus_sum (accumPairs [rQ]) 0 1
          / ((versus_sel (accumPairs [rQ]) 0 1).length : ℝ) + q = 1) ∧
      row2.game_count = (versus_row_ab (accumPairs [rQ]) 0 1).game_count ∧
      row2.pair_count = (versus_row_ab (accumPairs [rQ]) 0 1).pair_count := by
  have hlen : (versus_sel (accumPairs [rQ]) 0 1).length = 1 := by
    norm_num [versus_sel, accumPairs, vsStep, canonical, qualifies, rQ, assocSet,
      HIGH_RATING, MAX_DEVIATION]
  have hwr : (versus_row_ab (accumPairs [rQ]) 0 1).win_rate
      = some (versus_sum (accumPairs [rQ]) 0 1
        / ((versus_sel (accumPairs [rQ]) 0 1).length : ℝ)) := by
    show versus_probability (accumPairs [rQ]) 0 1 = _
    unfold versus_probability
    rw [if_neg (by rw [hlen]; norm_num)]
  exact versus_matchups_mirror 2 [rQ] (versus_row_ab (accumPairs [rQ]) 0 1)
    (by simp [calc_versus_matchups, versus_pair_rows, List.range_succ]) _ hwr

/-- C2 counterexample: on an empty accumulator (no qualifying bucket at
all), the table build still writes a `(0, 1)` row for a two-character
roster — absent pairs do get rows. -/
theorem calc_versus_rows_without_bucket :
    accumPairs [] = [] ∧
    ∃ row ∈ calc_versus_matchups 2 [], row.char_a = 0 ∧ row.char_b = 1 := by
  refine ⟨rfl, versus_row_ab (accumPairs []) 0 1, ?_, rfl, rfl⟩
  simp [calc_versus_matchups, versus_pair_rows, List.range_succ]

theorem flatMap_congr_mem {α β : Type} (l : List α) (f g : α → List β)
    (h : ∀ x ∈ l, f x = g x) : l.flatMap f = l.flatMap g := by
  induction l with
  | nil => rfl
  | cons hd t ih =>
      rw [List.flatMap_cons, List.flatMap_cons, h hd (List.mem_cons_self _ _),
        ih (fun x hx => h x (List.mem_cons_of_mem _ hx))]

theorem flatMap_eq_nil_of {α β : Type} (l : List α) (f : α → List β)
    (h : ∀ x ∈ l, f x = []) : l.flatMap f = [] := by
  induction l with
  | nil => rfl
  | cons hd t ih =>
      rw [List.flatMap_cons, h hd (List.mem_cons_self _ _),
        ih (fun x hx => h x (List.mem_cons_of_mem _ hx))]
      rfl

theorem filter_flatMap {α β : Type} (l : List β) (f : β → List α) (p : α → Bool) :
    (l.flatMap f).filter p = l.flatMap (fun x => (f x).filter p) := by
  induction l with
  | nil => rfl
  | cons hd t ih => rw [List.flatMap_cons, List.flatMap_cons, List.filter_append, ih]

theorem flatMap_indicator {α β : Type} [DecidableEq α] (l : List α) (a : α)
    (g : α → List β) (hnd : l.Nodup) (ha : a ∈ l) :
    l.flatMap (fun x => if x = a then g x else []) = g a := by
  induction l with
  | nil => cases ha
  | cons hd t ih =>
      obtain ⟨hhd, hts⟩ := List.nodup_cons.mp hnd
      rcases List.mem_cons.mp ha with h | h
      · rw [List.flatMap_cons, if_pos h.symm, ← h]
        have hnil : t.flatMap (fun x => if x = a then g x else []) = [] := by
          refine flatMap_eq_nil_of _ _ (fun x hx => ?_)
          rw [if_neg ?_]
          intro hxa
          rw [hxa] at hx
          rw [h] at hx
          exact hhd hx
        rw [hnil, List.append_nil]
      · have hne : ¬ hd = a := by
          intro hh
          rw [hh] at hhd
          exact hhd h
        rw [List.flatMap_cons, if_neg hne, List.nil_append, ih hts h]

/-- C2 (amended): for every character pair `a < b < char_count` the rebuilt
versus table holds exactly one `(a, b)` row — `(a, b, probability)` — and
exactly one `(b, a)` row — `(b, a, 1 − probability)` — whether or not any
qualifying bucket exists for the pair (a bucketless pair gets
`game_count = 0`, `pair_count = 0`). -/
theorem calc_versus_writes_all_pairs (char_count : ℕ) (rows : List JoinedRow)
    (a b : ℕ) (hab : a < b) (hbN : b < char_count) :
    (calc_versus_matchups char_count rows).filter
        (fun row => decide (row.char_a = (a : ℤ) ∧ row.char_b = (b : ℤ)))
      = [versus_row_ab (accumPairs rows) (a : ℤ) (b : ℤ)] ∧
    (calc_versus_matchups char_count rows).filter
        (fun row => decide (row.char_a = (b : ℤ) ∧ row.char_b = (a : ℤ)))
      = [versus_row_ba (accumPairs rows) (a : ℤ) (b : ℤ)] := by
  have haN : a < char_count := lt_trans hab hbN
  have hcast : ∀ m n : ℕ, ((m : ℤ) = (n : ℤ)) → m = n := by
    intro m n h
    exact_mod_cast h
  constructor
  · rw [calc_versus_matchups, filter_flatMap,
      flatMap_congr_mem _ _ _ (fun x _ => filter_flatMap _ _ _)]
    have houter : ∀ x ∈ List.range char_count,
        (((List.range char_count).filter (fun y => decide (x < y))).flatMap
          (fun y => (versus_pair_rows (accumPairs rows) (x : ℤ) (y : ℤ)).filter
            (fun row => decide (row.char_a = (a : ℤ) ∧ row.char_b = (b : ℤ)))))
        = if x = a then [versus_row_ab (accumPairs rows) (a : ℤ) (b : ℤ)] else [] := by
      intro x hx
      by_cases hxa : x = a
      · rw [if_pos hxa]
        have hinner : ∀ y ∈ (List.range char_count).filter (fun z => decide (x < z)),
            (versus_pair_rows (accumPairs rows) (x : ℤ) (y : ℤ)).filter
              (fun row => decide (row.char_a = (a : ℤ) ∧ row.char_b = (b : ℤ)))
            = if y = b then [versus_row_ab (accumPairs rows) (x : ℤ) (y : ℤ)] else [] := by
          intro y hy
          have hxy : x < y := by
            have := (List.mem_filter.mp hy).2
            simpa using this
          have hcond2 : ¬ ((y : ℤ) = (a : ℤ) ∧ (x : ℤ) = (b : ℤ)) := by
            rintro ⟨h1, h2⟩
            have hya : y = a := hcast _ _ h1
            omega
          by_cases hyb : y = b
          · have hcond1 : ((x : ℤ) = (a : ℤ) ∧ (y : ℤ) = (b : ℤ)) :=
              ⟨by exact_mod_cast hxa, by exact_mod_cast hyb⟩
            simp only [versus_pair_rows, List.filter_cons, List.filter_nil,
              versus_row_ab_char_a, versus_row_ab_char_b, versus_row_ba_char_a,
              versus_row_ba_char_b, decide_eq_true_eq, eq_true hcond1,
              eq_false hcond2, eq_true hyb, if_true, if_false]
          · have hcond1 : ¬ ((x : ℤ) = (a : ℤ) ∧ (y : ℤ) = (b : ℤ)) := by
              rintro ⟨h1, h2⟩
              exact hyb (hcast _ _ h2)
            simp only [versus_pair_rows, List.filter_cons, List.filter_nil,
              versus_row_ab_char_a, versus_row_ab_char_b, versus_row_ba_char_a,
              versus_row_ba_char_b, decide_eq_true_eq, eq_false hcond1,
              eq_false hcond2, eq_false hyb, if_false]
        rw [flatMap_congr_mem _ _ _ hinner,
          flatMap_indicator _ b _ (List.Nodup.filter _ (List.nodup_range char_count))
            (List.mem_filter.mpr ⟨List.mem_range.mpr hbN, by
              simp only [decide_eq_true_eq]
              omega⟩),
          hxa]
      · rw [if_neg hxa]
        refine flatMap_eq_nil_of _ _ (fun y hy => ?_)
        have hxy : x < y := by
          have := (List.mem_filter.mp hy).2
          simpa using this
        have hcond1 : ¬ ((x : ℤ) = (a : ℤ) ∧ (y : ℤ) = (b : ℤ)) := by
          rintro ⟨h1, h2⟩
          exact hxa (hcast _ _ h1)
        have hcond2 : ¬ ((y : ℤ) = (a : ℤ) ∧ (x : ℤ) = (b : ℤ)) := by
          rintro ⟨h1, h2⟩
          have hya : y = a := hcast _ _ h1
          have hxb : x = b := hcast _ _ h2
          omega
        simp only [versus_pair_rows, List.filter_cons, List.filter_nil,
          versus_row_ab_char_a, versus_row_ab_char_b, versus_row_ba_char_a,
          versus_row_ba_char_b, decide_eq_true_eq, eq_false hcond1,
          eq_false hcond2, if_false]
    rw [flatMap_congr_mem _ _ _ houter,
      flatMap_indicator _ a _ (List.nodup_range char_count) (List.mem_range.mpr haN)]
  · rw [calc_versus_matchups, filter_flatMap,
      flatMap_congr_mem _ _ _ (fun x _ => filter_flatMap _ _ _)]
    have houter : ∀ x ∈ List.range char_count,
        (((List.range char_count).filter (fun y => decide (x < y))).flatMap
          (fun y => (versus_pair_rows (accumPairs rows) (x : ℤ) (y : ℤ)).filter
            (fun row => decide (row.char_a = (b : ℤ) ∧ row.char_b = (a : ℤ)))))
        = if x = a then [versus_row_ba (accumPairs rows) (a : ℤ) (b : ℤ)] else [] := by
      intro x hx
      by_cases hxa : x = a
      · rw [if_pos hxa]
        have hinner : ∀ y ∈ (List.range char_count).filter (fun z => decide (x < z)),
            (versus_pair_rows (accumPairs rows) (x : ℤ) (y : ℤ)).filter
              (fun row => decide (row.char_a = (b : ℤ) ∧ row.char_b = (a : ℤ)))
            = if y = b then [versus_row_ba (accumPairs rows) (x : ℤ) (y : ℤ)] else [] := by
          intro y hy
          have hxy : x < y := by
            have := (List.mem_filter.mp hy).2
            simpa using this
          have hcond1 : ¬ ((x : ℤ) = (b : ℤ) ∧ (y : ℤ) = (a : ℤ)) := by
            rintro ⟨h1, h2⟩
            have hxb : x = b := hcast _ _ h1
            omega
          by_cases hyb : y = b
          · have hcond2 : ((y : ℤ) = (b : ℤ) ∧ (x : ℤ) = (a : ℤ)) :=
              ⟨by exact_mod_cast hyb, by exact_mod_cast hxa⟩
            simp only [versus_pair_rows, List.filter_cons, List.filter_nil,
              versus_row_ab_char_a, versus_row_ab_char_b, versus_row_ba_char_a,
              versus_row_ba_char_b, decide_eq_true_eq, eq_false hcond1,
              eq_true hcond2, eq_true hyb, if_true, if_false]
          · have hcond2 : ¬ ((y : ℤ) = (b : ℤ) ∧ (x : ℤ) = (a : ℤ)) := by
              rintro ⟨h1, h2⟩
              exact hyb (hcast _ _ h1)
            simp only [versus_pair_rows, List.filter_cons, List.filter_nil,
              versus_row_ab_char_a, versus_row_ab_char_b, versus_row_ba_char_a,
              versus_row_ba_char_b, decide_eq_true_eq, eq_false hcond1,
              eq_false hcond2, eq_false hyb, if_false]
        rw [flatMap_congr_mem _ _ _ hinner,
          flatMap_indicator _ b _ (List.Nodup.filter _ (List.nodup_range char_count))
            (List.mem_filter.mpr ⟨List.mem_range.mpr hbN, by
              simp only [decide_eq_true_eq]
              omega⟩),
          hxa]
      · rw [if_neg hxa]
        refine flatMap_eq_nil_of _ _ (fun y hy => ?_)
        have hxy : x < y := by
          have := (List.mem_filter.mp hy).2
          simpa using this
        have hcond1 : ¬ ((x : ℤ) = (b : ℤ) ∧ (y : ℤ) = (a : ℤ)) := by
          rintro ⟨h1, h2⟩
          have hxb : x = b := hcast _ _ h1
          have hya : y = a := hcast _ _ h2
          omega
        have hcond2 : ¬ ((y : ℤ) = (b : ℤ) ∧ (x : ℤ) = (a : ℤ)) := by
          rintro ⟨h1, h2⟩
          exact hxa (hcast _ _ h2)
        simp only [versus_pair_rows, List.filter_cons, List.filter_nil,
          versus_row_ab_char_a, versus_row_ab_char_b, versus_row_ba_char_a,
          versus_row_ba_char_b, decide_eq_true_eq, eq_false hcond1,
          eq_false hcond2, if_false]
    rw [flatMap_congr_mem _ _ _ houter,
      flatMap_indicator _ a _ (List.nodup_range char_count) (List.mem_range.mpr haN)]

theorem calc_versus_writes_all_pairs_witness :
    (calc_versus_matchups 2 []).filter
        (fun row => decide (row.char_a = ((0 : ℕ) : ℤ) ∧ row.char_b = ((1 : ℕ) : ℤ)))
      = [versus_row_ab (accumPairs []) ((0 : ℕ) : ℤ) ((1 : ℕ) : ℤ)] :=
  (calc_versus_writes_all_pairs 2 [] 0 1 (by norm_num) (by norm_num)).1

theorem vsStep_canonical_some (pairs : List (VKey × Bucket)) (r : JoinedRow)
    (hq : qualifies r) (a b : ℤ × ℤ) (va vb : ℚ) (w : ℤ)
    (hc : canonical r = some (a, b, va, vb, w)) :
    vsStep pairs r =
      (if w = 1 then
        assocSet pairs (a, b)
          ((((assocFind pairs (a, b)).getD (0, 0, 0)).1 + (1 - win_prob va vb)),
           ((assocFind pairs (a, b)).getD (0, 0, 0)).2.1,
           ((assocFind pairs (a, b)).getD (0, 0, 0)).2.2 + 1)
      else if w = 2 then
        assocSet pairs (a, b)
          (((assocFind pairs (a, b)).getD (0, 0, 0)).1,
           (((assocFind pairs (a, b)).getD (0, 0, 0)).2.1 + win_prob va vb),
           ((assocFind pairs (a, b)).getD (0, 0, 0)).2.2 + 1)
      else assocSet pairs (a, b) ((assocFind pairs (a, b)).getD (0, 0, 0))) := by
  unfold vsStep
  rw [if_pos hq, hc]

/-- C6: every qualifying joined row is canonicalised (low character first,
winner flipped on swap, equal characters dropped); a canonical winner 1 adds
`1 − p_low` to `low_wins_weighted`, a canonical winner 2 adds `p_low` to
`high_wins_weighted`, with `p_low = exp(v_low) / (exp(v_low) + exp(v_high))`,
and `game_count` is always incremented. -/
theorem vs_step_canonicalizes (pairs : List (VKey × Bucket)) (r : JoinedRow)
    (hq : qualifies r) :
    (r.char_a = r.char_b → vsStep pairs r = pairs) ∧
    (r.char_a < r.char_b → r.winner = 1 →
      vsStep pairs r =
        assocSet pairs ((r.id_a, r.char_a), (r.id_b, r.char_b))
          ((((assocFind pairs ((r.id_a, r.char_a), (r.id_b, r.char_b))).getD (0, 0, 0)).1
              + (1 - win_prob r.value_a r.value_b)),
           ((assocFind pairs ((r.id_a, r.char_a), (r.id_b, r.char_b))).getD (0, 0, 0)).2.1,
           ((assocFind pairs ((r.id_a, r.char_a), (r.id_b, r.char_b))).getD (0, 0, 0)).2.2
              + 1)) ∧
    (r.char_a < r.char_b → r.winner = 2 →
      vsStep pairs r =
        assocSet pairs ((r.id_a, r.char_a), (r.id_b, r.char_b))
          (((assocFind pairs ((r.id_a, r.char_a), (r.id_b, r.char_b))).getD (0, 0, 0)).1,
           (((assocFind pairs ((r.id_a, r.char_a), (r.id_b, r.char_b))).getD (0, 0, 0)).2.1
              + win_prob r.value_a r.value_b),
           ((assocFind pairs ((r.id_a, r.char_a), (r.id_b, r.char_b))).getD (0, 0, 0)).2.2
              + 1)) ∧
    (r.char_b < r.char_a → r.winner = 1 →
      vsStep pairs r =
        assocSet pairs ((r.id_b, r.char_b), (r.id_a, r.char_a))
          (((assocFind pairs ((r.id_b, r.char_b), (r.id_a, r.char_a))).getD (0, 0, 0)).1,
           (((assocFind pairs ((r.id_b, r.char_b), (r.id_a, r.char_a))).getD (0, 0, 0)).2.1
              + win_prob r.value_b r.value_a),
           ((assocFind pairs ((r.id_b, r.char_b), (r.id_a, r.char_a))).getD (0, 0, 0)).2.2
              + 1)) ∧
    (r.char_b < r.char_a → r.winner = 2 →
      vsStep pairs r =
        assocSet pairs ((r.id_b, r.char_b), (r.id_a, r.char_a))
          ((((assocFind pairs ((r.id_b, r.char_b), (r.id_a, r.char_a))).getD (0, 0, 0)).1
              + (1 - win_prob r.value_b r.value_a)),
           ((assocFind pairs ((r.id_b, r.char_b), (r.id_a, r.char_a))).getD (0, 0, 0)).2.1,
           ((assocFind pairs ((r.id_b, r.char_b), (r.id_a, r.char_a))).getD (0, 0, 0)).2.2
              + 1)) := by
  refine ⟨?_, ?_, ?_, ?_, ?_⟩
  · intro heq
    have hc : canonical r = none := by
      unfold canonical
      rw [if_neg (by rw [heq]; exact lt_irrefl _),
        if_neg (by rw [heq]; exact lt_irrefl _)]
    unfold vsStep
    rw [if_pos hq, hc]
  · intro hlt hw
    have hc : canonical r = some ((r.id_a, r.char_a), (r.id_b, r.char_b),
        r.value_a, r.value_b, r.winner) := by
      unfold canonical
      rw [if_pos hlt]
    rw [vsStep_canonical_some pairs r hq _ _ _ _ _ hc, if_pos hw]
  · intro hlt hw
    have hc : canonical r = some ((r.id_a, r.char_a), (r.id_b, r.char_b),
        r.value_a, r.value_b, r.winner) := by
      unfold canonical
      rw [if_pos hlt]
    have hne : ¬ r.winner = 1 := by
      rw [hw]
      decide
    rw [vsStep_canonical_some pairs r hq _ _ _ _ _ hc, if_neg hne, if_pos hw]
  · intro hlt hw
    have hnlt : ¬ r.char_a < r.char_b := not_lt_of_gt hlt
    have hc : canonical r = some ((r.id_b, r.char_b), (r.id_a, r.char_a),
        r.value_b, r.value_a, (2 : ℤ)) := by
      unfold canonical
      rw [if_neg hnlt, if_pos hlt, if_pos hw]
    rw [vsStep_canonical_some pairs r hq _ _ _ _ _ hc, if_neg (by decide), if_pos rfl]
  · intro hlt hw
    have hnlt : ¬ r.char_a < r.char_b := not_lt_of_gt hlt
    have hne : ¬ r.winner = 1 := by
      rw [hw]
      decide
    have hc : canonical r = some ((r.id_b, r.char_b), (r.id_a, r.char_a),
        r.value_b, r.value_a, (1 : ℤ)) := by
      unfold canonical
      rw [if_neg hnlt, if_pos hlt, if_neg hne]
    rw [vsStep_canonical_some pairs r hq _ _ _ _ _ hc, if_pos rfl]

/-- A concrete qualifying joined row whose characters need swapping
(`char_b = 1 < char_a = 2`) and whose recorded winner is player 1. -/
def rW : JoinedRow :=
  { id_a := 1, char_a := 2, value_a := 2, deviation_a := 0,
    id_b := 5, char_b := 1, value_b := 3, deviation_b := 0, winner := 1 }

theorem vs_step_canonicalizes_witness :
    vsStep [] rW =
      assocSet [] ((rW.id_b, rW.char_b), (rW.id_a, rW.char_a))
        (((assocFind [] ((rW.id_b, rW.char_b), (rW.id_a, rW.char_a))).getD (0, 0, 0)).1,
         (((assocFind [] ((rW.id_b, rW.char_b), (rW.id_a, rW.char_a))).getD (0, 0, 0)).2.1
            + win_prob rW.value_b rW.value_a),
         ((assocFind [] ((rW.id_b, rW.char_b), (rW.id_a, rW.char_a))).getD (0, 0, 0)).2.2
            + 1) :=
  (vs_step_canonicalizes [] rW
      (by norm_num [qualifies, rW, HIGH_RATING, MAX_DEVIATION])).2.2.2.1
    (by norm_num [rW]) rfl

/-! ### The rating updater: `update_ratings` -/

/-- An entry of the in-memory player table of `update_ratings`:
`(RatedPlayer, Vec<GameResult>)`. -/
abbrev PEntry := RatedPlayer × List GameResult

/-- The in-memory player table keyed by `(id, char_id)` (an `FxHashMap` in
the source; an association list here). -/
abbrev PMap := List (PKey × PEntry)

/-- The rating field of a map entry; absent keys read as the unrated
default the source would create for them. -/
def ratingOfMap (m : PMap) (k : PKey) : Glicko2Rating :=
  ((assocFind m k).map (fun e => e.1.rating)).getD Glicko2Rating.unrated

/-- `players.get_mut(&k).unwrap().1.push(res)`. -/
def pushOutcome (m : PMap) (k : PKey) (res : GameResult) : PMap :=
  assocAdj m k (fun e => (e.1, e.2 ++ [res]))

/-- `players.get_mut(&k).unwrap().0.win_count += 1`. -/
def addWinCount (m : PMap) (k : PKey) : PMap :=
  assocAdj m k (fun e => ({ e.1 with win_count := e.1.win_count + 1 }, e.2))

/-- `players.get_mut(&k).unwrap().0.loss_count += 1`. -/
def addLossCount (m : PMap) (k : PKey) : PMap :=
  assocAdj m k (fun e => ({ e.1 with loss_count := e.1.loss_count + 1 }, e.2))

/-- The body of the `for g in games` loop of `update_ratings`: upsert the
player rows, lazily create both rating entries, read the two pre-update
ratings, append the outcomes and bump the in-memory counters according to
the winner, run the matchup updates, and append the `game_ratings`
snapshot. -/
noncomputable def applyGame (ms : PMap × DbState) (g : GameRec) : PMap × DbState :=
  let st0 := update_player (update_player ms.2 g.id_a g.name_a g.game_floor)
    g.id_b g.name_b g.game_floor
  let m1 := assocOrInsert ms.1 (g.id_a, g.char_a) (RatedPlayer.new g.id_a g.char_a, [])
  let rating_a := ratingOfMap m1 (g.id_a, g.char_a)
  let m2 := assocOrInsert m1 (g.id_b, g.char_b) (RatedPlayer.new g.id_b g.char_b, [])
  let rating_b := ratingOfMap m2 (g.id_b, g.char_b)
  let m3 :=
    if g.winner = 1 then
      addLossCount (addWinCount
        (pushOutcome (pushOutcome m2 (g.id_a, g.char_a) (GameResult.win rating_b))
          (g.id_b, g.char_b) (GameResult.loss rating_a))
        (g.id_a, g.char_a)) (g.id_b, g.char_b)
    else if g.winner = 2 then
      addWinCount (addLossCount
        (pushOutcome (pushOutcome m2 (g.id_a, g.char_a) (GameResult.loss rating_b))
          (g.id_b, g.char_b) (GameResult.win rating_a))
        (g.id_a, g.char_a)) (g.id_b, g.char_b)
    else m2
  let st1 := matchupStep st0 g rating_a rating_b
  let snap : GameRatingRec :=
    { timestamp := g.timestamp, id_a := g.id_a, value_a := rating_a.value,
      deviation_a := rating_a.deviation, id_b := g.id_b, value_b := rating_b.value,
      deviation_b := rating_b.deviation }
  (m3, { st1 with game_ratings := st1.game_ratings ++ [snap] })

/-- `SELECT * FROM games WHERE timestamp >= last_timestamp AND timestamp < next_timestamp`. -/
def windowGames (st : DbState) : List GameRec :=
  st.games.filter (fun g => decide (st.config_last_update ≤ g.timestamp ∧
    g.timestamp < st.config_last_update + RATING_PERIOD))

/-- Source: `fn update_ratings` — load the window games and the rating
table, process every game, apply `glicko2::new_rating` (the parameter `fn`,
the crate being external) once per in-memory entry with `SYS_CONSTANT`,
write the rows back, advance `config.last_update` by `RATING_PERIOD` and
return it. -/
noncomputable def update_ratings (fn : NewRatingFn) (st : DbState) : DbState × ℤ :=
  let next_timestamp := st.config_last_update + RATING_PERIOD
  let m0 : PMap := st.player_ratings.map (fun kp => (kp.1, (kp.2, ([] : List GameResult))))
  let res := (windowGames st).foldl applyGame (m0, st)
  let new_ratings := res.1.map (fun ke =>
    (ke.1, { ke.2.1 with rating := fn ke.2.1.rating ke.2.2 SYS_CONSTANT }))
  let st2 :=
    { res.2 with player_ratings := new_ratings, config_last_update := next_timestamp }
  (st2, next_timestamp)

theorem ratingOfMap_orInsert (m : PMap) (k k' : PKey) (e : PEntry)
    (he : e.1.rating = Glicko2Rating.unrated) :
    ratingOfMap (assocOrInsert m k e) k' = ratingOfMap m k' := by
  unfold ratingOfMap
  rw [assocFind_orInsert]
  cases hf : assocFind m k' with
  | some w => simp
  | none =>
      by_cases hk : k' = k
      · simp [hk, he]
      · simp [hk]

theorem ratingOfMap_adj_of (m : PMap) (k k' : PKey) (f : PEntry → PEntry)
    (hf : ∀ e, (f e).1.rating = e.1.rating) :
    ratingOfMap (assocAdj m k f) k' = ratingOfMap m k' := by
  unfold ratingOfMap
  rw [assocFind_adj]
  by_cases hk : k' = k
  · subst hk
    cases hfd : assocFind m k' with
    | some e => simp [hf]
    | none => simp
  · simp [hk]

theorem ratingOfMap_pushOutcome (m : PMap) (k k' : PKey) (res : GameResult) :
    ratingOfMap (pushOutcome m k res) k' = ratingOfMap m k' :=
  ratingOfMap_adj_of m k k' _ (fun _ => rfl)

theorem ratingOfMap_addWinCount (m : PMap) (k k' : PKey) :
    ratingOfMap (addWinCount m k) k' = ratingOfMap m k' :=
  ratingOfMap_adj_of m k k' _ (fun _ => rfl)

theorem ratingOfMap_addLossCount (m : PMap) (k k' : PKey) :
    ratingOfMap (addLossCount m k) k' = ratingOfMap m k' :=
  ratingOfMap_adj_of m k k' _ (fun _ => rfl)

theorem assocFind_pushOutcome (m : PMap) (k : PKey) (res : GameResult) (k' : PKey) :
    assocFind (pushOutcome m k res) k' =
      if k' = k then (assocFind m k).map (fun e => (e.1, e.2 ++ [res]))
      else assocFind m k' := assocFind_adj m k _ k'

theorem assocFind_addWinCount (m : PMap) (k : PKey) (k' : PKey) :
    assocFind (addWinCount m k) k' =
      if k' = k then (assocFind m k).map
        (fun e => ({ e.1 with win_count := e.1.win_count + 1 }, e.2))
      else assocFind m k' := assocFind_adj m k _ k'

theorem assocFind_addLossCount (m : PMap) (k : PKey) (k' : PKey) :
    assocFind (addLossCount m k) k' =
      if k' = k then (assocFind m k).map
        (fun e => ({ e.1 with loss_count := e.1.loss_count + 1 }, e.2))
      else assocFind m k' := assocFind_adj m k _ k'

/-- The rating a `(player, character)` key holds at the start of the
window: its `player_ratings` row if present, the unrated default
otherwise. -/
def startRating (st : DbState) (k : PKey) : Glicko2Rating :=
  ((assocFind st.player_ratings k).map (fun p => p.rating)).getD Glicko2Rating.unrated

/-- Does a game involve the key on either side? -/
def touches (g : GameRec) (k : PKey) : Prop :=
  k = (g.id_a, g.char_a) ∨ k = (g.id_b, g.char_b)

instance (g : GameRec) (k : PKey) : Decidable (touches g k) := by
  unfold touches
  infer_instance

/-- The outcomes one game appends to the key's outcome list, the opponent
rating taken from the given rating view. -/
def gameOutcomes (ratingOf : PKey → Glicko2Rating) (k : PKey) (g : GameRec) :
    List GameResult :=
  if g.winner = 1 then
    (if k = (g.id_a, g.char_a) then [GameResult.win (ratingOf (g.id_b, g.char_b))] else [])
      ++ (if k = (g.id_b, g.char_b) then [GameResult.loss (ratingOf (g.id_a, g.char_a))]
          else [])
  else if g.winner = 2 then
    (if k = (g.id_a, g.char_a) then [GameResult.loss (ratingOf (g.id_b, g.char_b))] else [])
      ++ (if k = (g.id_b, g.char_b) then [GameResult.win (ratingOf (g.id_a, g.char_a))]
          else [])
  else []

/-- All outcomes a list of games appends to the key's outcome list. -/
def outcomesSpec (ratingOf : PKey → Glicko2Rating) (k : PKey) (gs : List GameRec) :
    List GameResult :=
  gs.flatMap (gameOutcomes ratingOf k)

/-- In-memory win-count increments one game contributes to the key. -/
def winsFor (k : PKey) (g : GameRec) : ℤ :=
  (if g.winner = 1 ∧ k = (g.id_a, g.char_a) then 1 else 0) +
    (if g.winner = 2 ∧ k = (g.id_b, g.char_b) then 1 else 0)

/-- In-memory loss-count increments one game contributes to the key. -/
def lossesFor (k : PKey) (g : GameRec) : ℤ :=
  (if g.winner = 1 ∧ k = (g.id_b, g.char_b) then 1 else 0) +
    (if g.winner = 2 ∧ k = (g.id_a, g.char_a) then 1 else 0)

def winsIn (k : PKey) (gs : List GameRec) : ℤ := (gs.map (winsFor k)).sum

def lossesIn (k : PKey) (gs : List GameRec) : ℤ := (gs.map (lossesFor k)).sum

/-- The entry the key holds when the window starts being processed: the
loaded row, or a fresh unrated row if some window game lazily creates it. -/
def startEntry (st : DbState) (gs : List GameRec) (k : PKey) : Option RatedPlayer :=
  match assocFind st.player_ratings k with
  | some p => some p
  | none =>
      if gs.any (fun g => decide (touches g k)) then some (RatedPlayer.new k.1 k.2)
      else none

theorem applyGame_find (ms : PMap × DbState) (g : GameRec) (k : PKey) :
    assocFind (applyGame ms g).1 k =
      match assocFind ms.1 k with
      | some e => some
          ({ e.1 with win_count := e.1.win_count + winsFor k g,
                      loss_count := e.1.loss_count + lossesFor k g },
           e.2 ++ gameOutcomes (ratingOfMap ms.1) k g)
      | none =>
          if touches g k then some
            ({ RatedPlayer.new k.1 k.2 with
                win_count := winsFor k g, loss_count := lossesFor k g },
             gameOutcomes (ratingOfMap ms.1) k g)
          else none := by
  have hORa : ∀ (m : PMap) (k' : PKey),
      ratingOfMap (assocOrInsert m (g.id_a, g.char_a)
        (RatedPlayer.new g.id_a g.char_a, [])) k' = ratingOfMap m k' :=
    fun m k' => ratingOfMap_orInsert m _ k' _ rfl
  have hORb : ∀ (m : PMap) (k' : PKey),
      ratingOfMap (assocOrInsert m (g.id_b, g.char_b)
        (RatedPlayer.new g.id_b g.char_b, [])) k' = ratingOfMap m k' :=
    fun m k' => ratingOfMap_orInsert m _ k' _ rfl
  simp only [applyGame]
  by_cases hA : k = (g.id_a, g.char_a)
  · subst hA
    by_cases hB : ((g.id_a, g.char_a) : PKey) = (g.id_b, g.char_b)
    · have hid1 : g.id_a = g.id_b := congrArg Prod.fst hB
      have hid2 : g.char_a = g.char_b := congrArg Prod.snd hB
      cases hfind : assocFind ms.1 ((g.id_a, g.char_a) : PKey) with
      | some e =>
          have hfindB : assocFind ms.1 ((g.id_b, g.char_b) : PKey) = some e := hB ▸ hfind
          by_cases hw1 : g.winner = 1
          · simp [hw1, hB, hid1, hid2, hfind, hfindB, hORa, hORb,
              assocFind_addLossCount, assocFind_addWinCount, assocFind_pushOutcome,
              assocFind_orInsert, winsFor, lossesFor, gameOutcomes, touches]
          · by_cases hw2 : g.winner = 2 <;>
              simp [hw1, hw2, hB, hid1, hid2, hfind, hfindB, hORa, hORb,
                assocFind_addLossCount, assocFind_addWinCount, assocFind_pushOutcome,
                assocFind_orInsert, winsFor, lossesFor, gameOutcomes, touches]
      | none =>
          have hfindB : assocFind ms.1 ((g.id_b, g.char_b) : PKey) = none := hB ▸ hfind
          by_cases hw1 : g.winner = 1
          · simp [hw1, hB, hid1, hid2, hfind, hfindB, hORa, hORb,
              assocFind_addLossCount, assocFind_addWinCount, assocFind_pushOutcome,
              assocFind_orInsert, winsFor, lossesFor, gameOutcomes, touches,
              RatedPlayer.new, ratingOfMap_orInsert]
          · by_cases hw2 : g.winner = 2 <;>
              simp [hw1, hw2, hB, hid1, hid2, hfind, hfindB, hORa, hORb,
                assocFind_addLossCount, assocFind_addWinCount, assocFind_pushOutcome,
                assocFind_orInsert, winsFor, lossesFor, gameOutcomes, touches,
                RatedPlayer.new, ratingOfMap_orInsert]
    · have hBn : ¬ ((g.id_b, g.char_b) : PKey) = (g.id_a, g.char_a) :=
        fun h => hB h.symm
      cases hfind : assocFind ms.1 ((g.id_a, g.char_a) : PKey) with
      | some e =>
          by_cases hw1 : g.winner = 1
          · simp [hw1, hB, hBn, hfind, hORa, hORb,
              assocFind_addLossCount, assocFind_addWinCount, assocFind_pushOutcome,
              assocFind_orInsert, winsFor, lossesFor, gameOutcomes, touches]
          · by_cases hw2 : g.winner = 2 <;>
              simp [hw1, hw2, hB, hBn, hfind, hORa, hORb,
                assocFind_addLossCount, assocFind_addWinCount, assocFind_pushOutcome,
                assocFind_orInsert, winsFor, lossesFor, gameOutcomes, touches]
      | none =>
          by_cases hw1 : g.winner = 1
          · simp [hw1, hB, hBn, hfind, hORa, hORb,
              assocFind_addLossCount, assocFind_addWinCount, assocFind_pushOutcome,
              assocFind_orInsert, winsFor, lossesFor, gameOutcomes, touches,
              RatedPlayer.new, ratingOfMap_orInsert]
          · by_cases hw2 : g.winner = 2 <;>
              simp [hw1, hw2, hB, hBn, hfind, hORa, hORb,
                assocFind_addLossCount, assocFind_addWinCount, assocFind_pushOutcome,
                assocFind_orInsert, winsFor, lossesFor, gameOutcomes, touches,
                RatedPlayer.new, ratingOfMap_orInsert]
  · by_cases hB : k = (g.id_b, g.char_b)
    · subst hB
      have hBn : ¬ ((g.id_b, g.char_b) : PKey) = (g.id_a, g.char_a) := hA
      have hABn : ¬ ((g.id_a, g.char_a) : PKey) = (g.id_b, g.char_b) :=
        fun h => hA h.symm
      cases hfind : assocFind ms.1 ((g.id_b, g.char_b) : PKey) with
      | some e =>
          by_cases hw1 : g.winner = 1
          · simp [hw1, hBn, hABn, hfind, hORa, hORb,
              assocFind_addLossCount, assocFind_addWinCount, assocFind_pushOutcome,
              assocFind_orInsert, winsFor, lossesFor, gameOutcomes, touches]
          · by_cases hw2 : g.winner = 2 <;>
              simp [hw1, hw2, hBn, hABn, hfind, hORa, hORb,
                assocFind_addLossCount, assocFind_addWinCount, assocFind_pushOutcome,
                assocFind_orInsert, winsFor, lossesFor, gameOutcomes, touches]
      | none =>
          by_cases hw1 : g.winner = 1
          · simp [hw1, hBn, hABn, hfind, hORa, hORb,
              assocFind_addLossCount, assocFind_addWinCount, assocFind_pushOutcome,
              assocFind_orInsert, winsFor, lossesFor, gameOutcomes, touches,
              RatedPlayer.new, ratingOfMap_orInsert]
          · by_cases hw2 : g.winner = 2 <;>
              simp [hw1, hw2, hBn, hABn, hfind, hORa, hORb,
                assocFind_addLossCount, assocFind_addWinCount, assocFind_pushOutcome,
                assocFind_orInsert, winsFor, lossesFor, gameOutcomes, touches,
                RatedPlayer.new, ratingOfMap_orInsert]
    · cases hfind : assocFind ms.1 k with
      | some e =>
          by_cases hw1 : g.winner = 1
          · simp [hw1, hA, hB, hfind, hORa, hORb,
              assocFind_addLossCount, assocFind_addWinCount, assocFind_pushOutcome,
              assocFind_orInsert, winsFor, lossesFor, gameOutcomes, touches]
          · by_cases hw2 : g.winner = 2 <;>
              simp [hw1, hw2, hA, hB, hfind, hORa, hORb,
                assocFind_addLossCount, assocFind_addWinCount, assocFind_pushOutcome,
                assocFind_orInsert, winsFor, lossesFor, gameOutcomes, touches]
      | none =>
          by_cases hw1 : g.winner = 1
          · simp [hw1, hA, hB, hfind, hORa, hORb,
              assocFind_addLossCount, assocFind_addWinCount, assocFind_pushOutcome,
              assocFind_orInsert, winsFor, lossesFor, gameOutcomes, touches]
          · by_cases hw2 : g.winner = 2 <;>
              simp [hw1, hw2, hA, hB, hfind, hORa, hORb,
                assocFind_addLossCount, assocFind_addWinCount, assocFind_pushOutcome,
                assocFind_orInsert, winsFor, lossesFor, gameOutcomes, touches]

theorem ratingOfMap_applyGame (ms : PMap × DbState) (g : GameRec) (k : PKey) :
    ratingOfMap (applyGame ms g).1 k = ratingOfMap ms.1 k := by
  simp only [applyGame]
  by_cases hw1 : g.winner = 1
  · simp [hw1, ratingOfMap_addLossCount, ratingOfMap_addWinCount,
      ratingOfMap_pushOutcome, ratingOfMap_orInsert, RatedPlayer.new]
  · by_cases hw2 : g.winner = 2 <;>
      simp [hw1, hw2, ratingOfMap_addLossCount, ratingOfMap_addWinCount,
        ratingOfMap_pushOutcome, ratingOfMap_orInsert, RatedPlayer.new]

theorem winsFor_of_not_touches (k : PKey) (g : GameRec) (h : ¬ touches g k) :
    winsFor k g = 0 := by
  obtain ⟨h1, h2⟩ := not_or.mp h
  simp [winsFor, h1, h2]

theorem lossesFor_of_not_touches (k : PKey) (g : GameRec) (h : ¬ touches g k) :
    lossesFor k g = 0 := by
  obtain ⟨h1, h2⟩ := not_or.mp h
  simp [lossesFor, h1, h2]

theorem gameOutcomes_of_not_touches (ratingOf : PKey → Glicko2Rating) (k : PKey)
    (g : GameRec) (h : ¬ touches g k) : gameOutcomes ratingOf k g = [] := by
  obtain ⟨h1, h2⟩ := not_or.mp h
  simp [gameOutcomes, h1, h2]

theorem processGames_find (gs : List GameRec) (ms : PMap × DbState) (k : PKey) :
    assocFind (gs.foldl applyGame ms).1 k =
      match assocFind ms.1 k with
      | some e => some
          ({ e.1 with win_count := e.1.win_count + winsIn k gs,
                      loss_count := e.1.loss_count + lossesIn k gs },
           e.2 ++ outcomesSpec (ratingOfMap ms.1) k gs)
      | none =>
          if gs.any (fun g => decide (touches g k)) then some
            ({ RatedPlayer.new k.1 k.2 with
                win_count := winsIn k gs, loss_count := lossesIn k gs },
             outcomesSpec (ratingOfMap ms.1) k gs)
          else none := by
  induction gs generalizing ms with
  | nil =>
      cases hfind : assocFind ms.1 k <;>
        simp [hfind, winsIn, lossesIn, outcomesSpec]
  | cons g gs ih =>
      have hro : ratingOfMap (applyGame ms g).1 = ratingOfMap ms.1 :=
        funext (ratingOfMap_applyGame ms g)
      rw [List.foldl_cons, ih (applyGame ms g), applyGame_find, hro]
      cases hfind : assocFind ms.1 k with
      | some e =>
          simp [hfind, winsIn, lossesIn, outcomesSpec, add_assoc]
      | none =>
          by_cases ht : touches g k
          · simp [hfind, ht, winsIn, lossesIn, outcomesSpec]
          · simp [hfind, ht, winsIn, lossesIn, outcomesSpec,
              winsFor_of_not_touches k g ht, lossesFor_of_not_touches k g ht,
              gameOutcomes_of_not_touches (ratingOfMap ms.1) k g ht]

/-- The `game_ratings` snapshot one game appends, taken from the given
rating view. -/
def snapshotSpec (ratingOf : PKey → Glicko2Rating) (g : GameRec) : GameRatingRec :=
  { timestamp := g.timestamp, id_a := g.id_a,
    value_a := (ratingOf (g.id_a, g.char_a)).value,
    deviation_a := (ratingOf (g.id_a, g.char_a)).deviation,
    id_b := g.id_b, value_b := (ratingOf (g.id_b, g.char_b)).value,
    deviation_b := (ratingOf (g.id_b, g.char_b)).deviation }

theorem matchupStep_game_ratings (st : DbState) (g : GameRec)
    (ra rb : Glicko2Rating) : (matchupStep st g ra rb).game_ratings = st.game_ratings := by
  unfold matchupStep
  split_ifs <;> rfl

theorem applyGame_game_ratings (ms : PMap × DbState) (g : GameRec) :
    (applyGame ms g).2.game_ratings
      = ms.2.game_ratings ++ [snapshotSpec (ratingOfMap ms.1) g] := by
  simp only [applyGame]
  simp [matchupStep_game_ratings, update_player, snapshotSpec,
    ratingOfMap_orInsert, RatedPlayer.new]

theorem processGames_game_ratings (gs : List GameRec) (ms : PMap × DbState) :
    ((gs.foldl applyGame ms).2).game_ratings
      = ms.2.game_ratings ++ gs.map (snapshotSpec (ratingOfMap ms.1)) := by
  induction gs generalizing ms with
  | nil => simp
  | cons g gs ih =>
      have hro : ratingOfMap (applyGame ms g).1 = ratingOfMap ms.1 :=
        funext (ratingOfMap_applyGame ms g)
      rw [List.foldl_cons, ih (applyGame ms g), applyGame_game_ratings, hro]
      simp

/-- C3: in one window, every `(player, character)` entity's stored rating
is replaced by exactly one application of the Glicko-2 update — the crate
function `fn` — at `τ = SYS_CONSTANT`, taken over the entity's start-of-window
rating and the outcomes of all of that window's games with opponent ratings
read at the start of the window; entities with no games (empty outcome
list) are updated through the same single call; the recorded `game_ratings`
snapshots use the start-of-window ratings; and the outcome lists are
permutation-invariant under reordering of the window's games. -/
theorem update_ratings_glicko_once (fn : NewRatingFn) (st : DbState)
    (_hw : ∀ g ∈ windowGames st, g.winner = 1 ∨ g.winner = 2) :
    (∀ k : PKey,
      assocFind (update_ratings fn st).1.player_ratings k =
        (startEntry st (windowGames st) k).map (fun p =>
          { p with
              win_count := p.win_count + winsIn k (windowGames st),
              loss_count := p.loss_count + lossesIn k (windowGames st),
              rating := fn p.rating
                (outcomesSpec (startRating st) k (windowGames st)) SYS_CONSTANT })) ∧
    (update_ratings fn st).1.game_ratings
      = st.game_ratings ++ (windowGames st).map (snapshotSpec (startRating st)) ∧
    (∀ gs', (windowGames st).Perm gs' → ∀ k : PKey,
      (outcomesSpec (startRating st) k (windowGames st)).Perm
        (outcomesSpec (startRating st) k gs')) := by
  have hinit : ratingOfMap (st.player_ratings.map
      (fun kp => (kp.1, (kp.2, ([] : List GameResult))))) = startRating st := by
    funext k
    unfold ratingOfMap startRating
    rw [assocFind_map (fun p : RatedPlayer => (p, ([] : List GameResult)))]
    cases assocFind st.player_ratings k <;> simp
  refine ⟨?_, ?_, ?_⟩
  · intro k
    have hm0 : assocFind (st.player_ratings.map
        (fun kp => (kp.1, (kp.2, ([] : List GameResult))))) k
        = (assocFind st.player_ratings k).map (fun p => (p, [])) :=
      assocFind_map (fun p : RatedPlayer => (p, ([] : List GameResult)))
        st.player_ratings k
    simp only [update_ratings]
    rw [assocFind_map (fun e : PEntry =>
        ({ id := e.1.id, char_id := e.1.char_id, win_count := e.1.win_count,
           loss_count := e.1.loss_count,
           rating := fn e.1.rating e.2 SYS_CONSTANT } : RatedPlayer)),
      processGames_find, hinit, hm0]
    cases hfind : assocFind st.player_ratings k with
    | some p => simp [startEntry, hfind]
    | none =>
        by_cases hany : (windowGames st).any (fun g => decide (touches g k))
        · simp [startEntry, hfind, hany, RatedPlayer.new]
        · simp [startEntry, hfind, hany]
  · simp only [update_ratings]
    rw [processGames_game_ratings, hinit]
  · intro gs' hp k
    unfold outcomesSpec
    exact List.Perm.flatMap_right _ hp

/-- The one rated `(player, character)` row of the C3 witness state. -/
def pr0 : RatedPlayer :=
  { id := 5, char_id := 0, win_count := 3, loss_count := 4,
    rating := { value := 1, deviation := 2, volatility := 3 } }

/-- A store with one rated row and no games at all (an empty window). -/
def stC3 : DbState := { DbState.empty with player_ratings := [((5, 0), pr0)] }

theorem update_ratings_glicko_once_witness :
    assocFind (update_ratings (fun r _ _ => r) stC3).1.player_ratings (5, 0) =
      (startEntry stC3 (windowGames stC3) (5, 0)).map (fun p =>
        { p with
            win_count := p.win_count + winsIn (5, 0) (windowGames stC3),
            loss_count := p.loss_count + lossesIn (5, 0) (windowGames stC3),
            rating := (fun r _ _ => r) p.rating
              (outcomesSpec (startRating stC3) (5, 0) (windowGames stC3))
              SYS_CONSTANT }) :=
  (update_ratings_glicko_once (fun r _ _ => r) stC3
    (by
      intro g hg
      simp [windowGames, stC3, DbState.empty] at hg)).1 (5, 0)

/-- C5: every run of `update_ratings` — a window with zero games included —
sets `config.last_update` to exactly `last_update + RATING_PERIOD`
(3600 s) and returns that value, so the cursor never decreases. -/
theorem update_ratings_advances_cursor (fn : NewRatingFn) (st : DbState) :
    (update_ratings fn st).2 = st.config_last_update + RATING_PERIOD ∧
    (update_ratings fn st).1.config_last_update
      = st.config_last_update + RATING_PERIOD ∧
    st.config_last_update ≤ (update_ratings fn st).1.config_last_update ∧
    RATING_PERIOD = 3600 := by
  refine ⟨rfl, rfl, ?_, rfl⟩
  have h : (update_ratings fn st).1.config_last_update
      = st.config_last_update + RATING_PERIOD := rfl
  rw [h, show RATING_PERIOD = 3600 from rfl]
  omega

/-! ### The mirror invariant of the global and high-rated matchup tables -/

/-- Winner-row win counters always mirror loser-row loss counters. -/
def Mirrored (t : ℤ × ℤ → MatchupRow) : Prop :=
  ∀ x y : ℤ, (t (x, y)).wins_real = (t (y, x)).losses_real ∧
    (t (x, y)).wins_adjusted = (t (y, x)).losses_adjusted

/-- Bumping the winner row `(c, d)` and the mirrored loser row `(d, c)` by
the same amount preserves the mirror property. -/
theorem mirrored_addPair (t : ℤ × ℤ → MatchupRow) (c d : ℤ) (p : ℝ)
    (h : Mirrored t) :
    Mirrored (tupd (tupd t (c, d) (fun row => rowAddWin row p)) (d, c)
      (fun row => rowAddLoss row p)) := by
  intro x y
  by_cases hcase : x = c ∧ y = d
  · obtain ⟨hx, hy⟩ := hcase
    subst hx
    subst hy
    constructor
    · simp [(h x y).1]
    · simp [(h x y).2]
  · have hne1 : ((x, y) : ℤ × ℤ) ≠ (c, d) := by
      intro hh
      exact hcase ⟨congrArg Prod.fst hh, congrArg Prod.snd hh⟩
    have hne2 : ((y, x) : ℤ × ℤ) ≠ (d, c) := by
      intro hh
      exact hcase ⟨congrArg Prod.snd hh, congrArg Prod.fst hh⟩
    constructor
    · rw [tupd_wr_AL, tupd_ne _ _ _ _ hne1, tupd_ne _ _ _ _ hne2, tupd_lr_AW]
      exact (h x y).1
    · rw [tupd_wa_AL, tupd_ne _ _ _ _ hne1, tupd_ne _ _ _ _ hne2, tupd_la_AW]
      exact (h x y).2

theorem matchupStep_mirrored (st : DbState) (g : GameRec) (ra rb : Glicko2Rating)
    (hg : Mirrored st.global_matchups) (hh : Mirrored st.high_rated_matchups) :
    Mirrored (matchupStep st g ra rb).global_matchups ∧
    Mirrored (matchupStep st g ra rb).high_rated_matchups := by
  unfold matchupStep
  split_ifs <;>
    first
      | exact ⟨mirrored_addPair _ _ _ _ hg, mirrored_addPair _ _ _ _ hh⟩
      | exact ⟨mirrored_addPair _ _ _ _ hg, hh⟩
      | exact ⟨hg, hh⟩

theorem applyGame_mirrored (ms : PMap × DbState) (g : GameRec)
    (hg : Mirrored ms.2.global_matchups) (hh : Mirrored ms.2.high_rated_matchups) :
    Mirrored (applyGame ms g).2.global_matchups ∧
    Mirrored (applyGame ms g).2.high_rated_matchups := by
  simp only [applyGame]
  exact matchupStep_mirrored _ g _ _ hg hh

theorem processGames_mirrored (gs : List GameRec) (ms : PMap × DbState)
    (hg : Mirrored ms.2.global_matchups) (hh : Mirrored ms.2.high_rated_matchups) :
    Mirrored ((gs.foldl applyGame ms).2).global_matchups ∧
    Mirrored ((gs.foldl applyGame ms).2).high_rated_matchups := by
  induction gs generalizing ms with
  | nil => exact ⟨hg, hh⟩
  | cons g gs ih =>
      rw [List.foldl_cons]
      obtain ⟨h1, h2⟩ := applyGame_mirrored ms g hg hh
      exact ih (applyGame ms g) h1 h2

/-- The states the two periodic tasks can produce from a fresh store: any
interleaving of game ingestion, rating windows, distribution snapshots and
versus-table rebuilds. -/
inductive Reachable : DbState → Prop where
  | init : Reachable DbState.empty
  | ingest (st : DbState) (m : MatchRec) : Reachable st → Reachable (add_game st m)
  | rate (st : DbState) (fn : NewRatingFn) :
      Reachable st → Reachable (update_ratings fn st).1
  | dist (st : DbState) : Reachable st → Reachable (update_player_distribution st)
  | versus (st : DbState) (char_count : ℕ) (rows : List JoinedRow) :
      Reachable st →
      Reachable { st with versus_matchups := calc_versus_matchups char_count rows }

/-- C9: in every reachable state, `wins_real` of a `global_matchups` row
equals `losses_real` of its mirror row, `wins_adjusted` equals the mirror's
`losses_adjusted`, and the same holds for `high_rated_matchups`: each game
bumps the winner row and the mirrored loser row by the same amount inside
the same transaction. -/
theorem matchup_tables_mirrored (st : DbState) (h : Reachable st) :
    Mirrored st.global_matchups ∧ Mirrored st.high_rated_matchups := by
  induction h with
  | init => exact ⟨fun x y => ⟨rfl, rfl⟩, fun x y => ⟨rfl, rfl⟩⟩
  | ingest st m _ ih =>
      have hgl : (add_game st m).global_matchups = st.global_matchups := by
        simp only [add_game]
        split_ifs <;> rfl
      have hhi : (add_game st m).high_rated_matchups = st.high_rated_matchups := by
        simp only [add_game]
        split_ifs <;> rfl
      rw [hgl, hhi]
      exact ih
  | rate st fn _ ih =>
      exact processGames_mirrored (windowGames st)
        (st.player_ratings.map (fun kp => (kp.1, (kp.2, ([] : List GameResult)))), st)
        ih.1 ih.2
  | dist st _ ih => exact ih
  | versus st char_count rows _ ih => exact ih

theorem matchup_tables_mirrored_witness :
    Mirrored DbState.empty.global_matchups ∧
    Mirrored DbState.empty.high_rated_matchups :=
  matchup_tables_mirrored DbState.empty Reachable.init

end RatingUpdate
